import Mathlib

/-!
Verification development for the type-exportability analysis and export-type
model of the slang RenderScript compiler front end
(`slang_rs_export_type.cpp`).

The host compiler's canonical type graph is embedded as the inductive `CType`;
the exportability checker, the canonical-name resolver, the interning factory
(`RSExportType::Create` together with the per-kind constructors) and the
`equals`/`keep` operations are embedded as executable Lean functions that
mirror the source control flow.  Machine integers that matter (the unsigned
index in `RSExportVectorType::GetTypeName`) are modelled as `Nat` with an
explicit `% 2^32`.

Parts of the repository that the sources do not contain (the `.inc` enum
tables, `RSContext`, `RSExportable`, `RSExportElement`, and the class
headers) are modelled from the specification; each such definition carries a
doc comment starting with `Modelled from the spec:`.
-/

namespace Slang

/-- The clang builtin kinds that can occur in the sources we model.
`wchar` stands for the platform-width-dependent character kinds that the
whitelist excludes. -/
inductive BuiltinKind where
  | bool | char | uchar | short | ushort | int | uint | long | ulong
  | float | double | wchar
deriving DecidableEq, Repr

/-- The `DataType` enumeration of `RSExportPrimitiveType`: scalar kinds,
packed-color kinds, and the disjoint ranges of RS matrix and RS object
pseudo-primitive tags, plus `unknown`. -/
inductive DataType where
  | float32 | float64
  | signed8 | signed16 | signed32 | signed64
  | unsigned8 | unsigned16 | unsigned32 | unsigned64
  | boolean
  | unsigned565 | unsigned5551 | unsigned4444
  | rsMatrix2x2 | rsMatrix3x3 | rsMatrix4x4
  | rsElement | rsType | rsAllocation | rsSampler | rsScript | rsMesh
  | rsProgramFragment | rsProgramVertex | rsProgramRaster | rsProgramStore
  | rsFont
  | unknown
deriving DecidableEq, Repr

/-- Modelled from the spec: the builtin whitelist table
(`RSClangBuiltinEnums.inc` is not among the sources).  Each supported scalar
kind maps to its fixed mnemonic (`cname`); the platform-width-dependent
character kinds are excluded (`none`). -/
def builtinCName : BuiltinKind → Option String
  | .bool => some "bool"
  | .char => some "char"
  | .uchar => some "uchar"
  | .short => some "short"
  | .ushort => some "ushort"
  | .int => some "int"
  | .uint => some "uint"
  | .long => some "long"
  | .ulong => some "ulong"
  | .float => some "float"
  | .double => some "double"
  | .wchar => none

/-- Modelled from the spec: the builtin whitelist table, mapping each
supported scalar kind to its `DataType` (signed/unsigned integers of widths
8/16/32/64, float32/float64, boolean). -/
def builtinDataType : BuiltinKind → Option DataType
  | .bool => some .boolean
  | .char => some .signed8
  | .uchar => some .unsigned8
  | .short => some .signed16
  | .ushort => some .unsigned16
  | .int => some .signed32
  | .uint => some .unsigned32
  | .long => some .signed64
  | .ulong => some .unsigned64
  | .float => some .float32
  | .double => some .float64
  | .wchar => none

/-- Modelled from the spec: the RS-specific type-name table built from
`RSMatrixTypeEnums.inc` and `RSObjectTypeEnums.inc` (not among the sources):
canonical names of the recognized RS matrix and RS object struct types. -/
def rsSpecificTypeMap : List (String × DataType) :=
  [("rs_matrix2x2", .rsMatrix2x2), ("rs_matrix3x3", .rsMatrix3x3),
   ("rs_matrix4x4", .rsMatrix4x4),
   ("rs_element", .rsElement), ("rs_type", .rsType),
   ("rs_allocation", .rsAllocation), ("rs_sampler", .rsSampler),
   ("rs_script", .rsScript), ("rs_mesh", .rsMesh),
   ("rs_program_fragment", .rsProgramFragment),
   ("rs_program_vertex", .rsProgramVertex),
   ("rs_program_raster", .rsProgramRaster),
   ("rs_program_store", .rsProgramStore), ("rs_font", .rsFont)]

/-- Assoc-list lookup with `String` keys (the map lookups of the source). -/
def lookupString {β : Type} : String → List (String × β) → Option β
  | _, [] => none
  | n, (k, v) :: rest => if k = n then some v else lookupString n rest

/-- `RSExportPrimitiveType::GetRSSpecificType(const llvm::StringRef&)`:
empty names are unknown, otherwise look the name up in the RS-specific
type-name table. -/
def RSExportPrimitiveType.GetRSSpecificTypeByName (tyName : String) : DataType :=
  if tyName = "" then .unknown
  else
    match lookupString tyName rsSpecificTypeMap with
    | some dt => dt
    | none => .unknown

/-- The non-recursive metadata of a host record declaration (everything
the core reads from a `clang::RecordDecl` except its field list). -/
structure RecMeta where
  /-- `RecordDecl::getName()` of the declaration itself. -/
  rawName : String
  /-- `getTypedefForAnonDecl()`'s name, when present. -/
  tdAnonName : Option String
  /-- names of the redeclarations scanned as the last naming fallback. -/
  redeclNames : List String
  /-- whether `getDefinition()` finds a definition in this module. -/
  hasDef : Bool
  isUnion : Bool
  /-- `hasFlexibleArrayMember()` -/
  flexArray : Bool
  /-- `hasObjectMember()` -/
  objMember : Bool
  /-- `hasAttr<clang::PackedAttr>()` -/
  packed : Bool
  /-- `ASTRecordLayout::getSize()` in bits. -/
  sizeBits : Nat
deriving DecidableEq, Repr

/-- A canonical host type (a node of clang's canonical type graph restricted
to the structural kinds the core dispatches on).  A record field is
`(name, canonical type, isBitField, layout offset in bits)`; clang's other
array flavours never reach the core, so `constantArray` is the only array
kind. -/
inductive CType where
  | builtin (k : BuiltinKind)
  | record (m : RecMeta) (fields : List (String × CType × Bool × Nat))
  | pointer (pointee : CType)
  | extVector (elem : CType) (numElements : Nat)
  | constantArray (elem : CType) (size : Nat)
  | other
deriving Repr

mutual

/-- Structural (canonical-type) equality test on host types; canonical clang
types are uniqued, so pointer identity in the source is structural identity
here. -/
def ctBeq : CType → CType → Bool
  | .builtin k, .builtin k' => k == k'
  | .record m fs, .record m' fs' => m == m' && ctFieldsBeq fs fs'
  | .pointer p, .pointer p' => ctBeq p p'
  | .extVector e n, .extVector e' n' => ctBeq e e' && n == n'
  | .constantArray e s, .constantArray e' s' => ctBeq e e' && s == s'
  | .other, .other => true
  | _, _ => false

def ctFieldsBeq : List (String × CType × Bool × Nat) →
    List (String × CType × Bool × Nat) → Bool
  | [], [] => true
  | (n, t, b, o) :: rest, (n', t', b', o') :: rest' =>
      n == n' && ctBeq t t' && b == b' && o == o' && ctFieldsBeq rest rest'
  | _, _ => false

end

mutual

theorem ctBeq_refl : ∀ a : CType, ctBeq a a = true
  | .builtin k => by simp [ctBeq]
  | .record m fs => by simp [ctBeq, ctBeq_refl, ctFieldsBeq_refl fs]
  | .pointer p => by simp [ctBeq, ctBeq_refl p]
  | .extVector e n => by simp [ctBeq, ctBeq_refl e]
  | .constantArray e s => by simp [ctBeq, ctBeq_refl e]
  | .other => by simp [ctBeq]

theorem ctFieldsBeq_refl : ∀ fs : List (String × CType × Bool × Nat),
    ctFieldsBeq fs fs = true
  | [] => by simp [ctFieldsBeq]
  | (n, t, b, o) :: rest => by
      simp [ctFieldsBeq, ctBeq_refl t, ctFieldsBeq_refl rest]

end

mutual

theorem ctBeq_eq : ∀ a b : CType, ctBeq a b = true → a = b
  | .builtin k, .builtin k' => by simp [ctBeq]
  | .record m fs, .record m' fs' => by
      simp only [ctBeq, Bool.and_eq_true, beq_iff_eq]
      rintro ⟨h1, h2⟩
      have := ctFieldsBeq_eq fs fs' h2
      simp [h1, this]
  | .pointer p, .pointer p' => by
      intro h
      have := ctBeq_eq p p' h
      simp [this]
  | .extVector e n, .extVector e' n' => by
      simp only [ctBeq, Bool.and_eq_true, beq_iff_eq]
      rintro ⟨h1, h2⟩
      have := ctBeq_eq e e' h1
      simp [this, h2]
  | .constantArray e s, .constantArray e' s' => by
      simp only [ctBeq, Bool.and_eq_true, beq_iff_eq]
      rintro ⟨h1, h2⟩
      have := ctBeq_eq e e' h1
      simp [this, h2]
  | .other, .other => by intro _; rfl
  | .builtin _, .record _ _ => by simp [ctBeq]
  | .builtin _, .pointer _ => by simp [ctBeq]
  | .builtin _, .extVector _ _ => by simp [ctBeq]
  | .builtin _, .constantArray _ _ => by simp [ctBeq]
  | .builtin _, .other => by simp [ctBeq]
  | .record _ _, .builtin _ => by simp [ctBeq]
  | .record _ _, .pointer _ => by simp [ctBeq]
  | .record _ _, .extVector _ _ => by simp [ctBeq]
  | .record _ _, .constantArray _ _ => by simp [ctBeq]
  | .record _ _, .other => by simp [ctBeq]
  | .pointer _, .builtin _ => by simp [ctBeq]
  | .pointer _, .record _ _ => by simp [ctBeq]
  | .pointer _, .extVector _ _ => by simp [ctBeq]
  | .pointer _, .constantArray _ _ => by simp [ctBeq]
  | .pointer _, .other => by simp [ctBeq]
  | .extVector _ _, .builtin _ => by simp [ctBeq]
  | .extVector _ _, .record _ _ => by simp [ctBeq]
  | .extVector _ _, .pointer _ => by simp [ctBeq]
  | .extVector _ _, .constantArray _ _ => by simp [ctBeq]
  | .extVector _ _, .other => by simp [ctBeq]
  | .constantArray _ _, .builtin _ => by simp [ctBeq]
  | .constantArray _ _, .record _ _ => by simp [ctBeq]
  | .constantArray _ _, .pointer _ => by simp [ctBeq]
  | .constantArray _ _, .extVector _ _ => by simp [ctBeq]
  | .constantArray _ _, .other => by simp [ctBeq]
  | .other, .builtin _ => by simp [ctBeq]
  | .other, .record _ _ => by simp [ctBeq]
  | .other, .pointer _ => by simp [ctBeq]
  | .other, .extVector _ _ => by simp [ctBeq]
  | .other, .constantArray _ _ => by simp [ctBeq]

theorem ctFieldsBeq_eq : ∀ fs fs' : List (String × CType × Bool × Nat),
    ctFieldsBeq fs fs' = true → fs = fs'
  | [], [] => by intro _; rfl
  | [], _ :: _ => by simp [ctFieldsBeq]
  | _ :: _, [] => by simp [ctFieldsBeq]
  | (n, t, b, o) :: rest, (n', t', b', o') :: rest' => by
      simp only [ctFieldsBeq, Bool.and_eq_true, beq_iff_eq]
      rintro ⟨⟨⟨⟨h1, h2⟩, h3⟩, h4⟩, h5⟩
      have he := ctBeq_eq t t' h2
      have hr := ctFieldsBeq_eq rest rest' h5
      simp [h1, he, h3, h4, hr]

end

instance : DecidableEq CType := fun a b =>
  if h : ctBeq a b = true then
    .isTrue (ctBeq_eq a b h)
  else
    .isFalse (fun he => h (he ▸ ctBeq_refl a))

/-- `clang::Type::isArrayType()` restricted to the array kinds representable
here (`ConstantArray` is the only one that occurs in the modelled graphs). -/
def CType.isArrayType : CType → Bool
  | .constantArray _ _ => true
  | _ => false

/-- `T->getTypeClass() == clang::Type::Pointer`. -/
def CType.isPointerType : CType → Bool
  | .pointer _ => true
  | _ => false

/-- `T->getTypeClass() == clang::Type::Builtin`. -/
def CType.isBuiltinType : CType → Bool
  | .builtin _ => true
  | _ => false

/-- `T->getTypeClassName()`, used as the `%0` argument of some diagnostics. -/
def CType.typeClassName : CType → String
  | .builtin _ => "Builtin"
  | .record _ _ => "Record"
  | .pointer _ => "Pointer"
  | .extVector _ _ => "ExtVector"
  | .constantArray _ _ => "ConstantArray"
  | .other => "other"

/-- `RSExportPrimitiveType::IsPrimitiveType`: non-null and of builtin type
class. -/
def RSExportPrimitiveType.IsPrimitiveType (t : CType) : Bool :=
  t.isBuiltinType

/-- The record-naming fallback chain of `RSExportType::GetTypeName`'s
`Record` case: the declaration's own name, else the typedef-for-anonymous
name, else the first non-empty redeclaration name. -/
def recordResolvedName (m : RecMeta) : String :=
  if m.rawName ≠ "" then m.rawName
  else
    let n1 := match m.tdAnonName with
      | some s => s
      | none => ""
    if n1 ≠ "" then n1
    else
      match m.redeclNames.find? (fun s => s ≠ "") with
      | some s => s
      | none => ""

/-- `RSExportPrimitiveType::GetRSSpecificType(const clang::Type*)`: unknown
unless the canonical type is a record; for records, look up the name that
`RSExportType::GetTypeName` resolves (which is empty for unions, since a
union is not a structure type). -/
def RSExportPrimitiveType.GetRSSpecificType (t : CType) : DataType :=
  match t with
  | .record m _ =>
      RSExportPrimitiveType.GetRSSpecificTypeByName
        (if m.isUnion then "" else recordResolvedName m)
  | _ => .unknown

/-- A diagnostic: custom error message template plus its `%N` arguments. -/
structure Diag where
  msg : String
  args : List String
deriving DecidableEq, Repr

/-- `ReportTypeError(Diags, SM, VD, TopLevelRecord, Message)` with a live
diagnostic engine: prefer the type declaration (`TopLevelRecord`), fall back
to the variable declaration; when neither is available the source asserts
and (in release builds) emits nothing. -/
def ReportTypeError (vd tlr : Option String) (msg : String) : List Diag :=
  match tlr with
  | some n => [⟨msg, [n]⟩]
  | none =>
      match vd with
      | some v => [⟨msg, [v]⟩]
      | none => []

/-- `if (!TopLevelRecord) TopLevelRecord = RD`: thread the existing
`TopLevelRecord`, or install the record being checked as the new one. -/
def tlrForRecord (tlr : Option String) (rdName : String) : Option String :=
  match tlr with
  | none => some rdName
  | some n => some n

mutual

/-- `TypeExportableHelper(T, SPS, Diags, SM, VD, TopLevelRecord)`.
`GET_CANONICAL_TYPE` is the identity here because `CType` graphs are already
canonical.  Returns the exportable canonical type (or `none`), the updated
by-reference visited set `SPS`, and the diagnostics emitted. -/
def TypeExportableHelper (t : CType) (sps : List CType)
    (vd tlr : Option String) : Option CType × List CType × List Diag :=
  if t ∈ sps then (some t, sps, [])
  else
    match t with
    | .builtin k =>
        if (builtinCName k).isSome then (some t, sps, []) else (none, sps, [])
    | .record m fs =>
        if RSExportPrimitiveType.GetRSSpecificType (.record m fs) ≠ .unknown then
          (some t, sps, [])  -- RS object type, no further checks are needed
        else if m.isUnion then
          (none, sps, ReportTypeError none (some m.rawName)
            "unions cannot be exported: '%0'")
        else if ¬ m.hasDef then
          (none, sps, ReportTypeError none (some m.rawName)
            "struct is not defined in this module")
        else
          let tlr1 : Option String := tlrForRecord tlr m.rawName
          if m.rawName = "" then
            (none, sps, ReportTypeError none (some m.rawName)
              "anonymous structures cannot be exported")
          else if m.flexArray || m.objMember then
            (none, sps, [])  -- fast check, silent rejection
          else
            -- insert myself into the checking set, then check all elements
            let r := recordFieldsExportable m.rawName fs (t :: sps) vd tlr1
            (if r.1 then some t else none, r.2.1, r.2.2)
    | .pointer p =>
        match tlr with
        | some _ =>
            (none, sps, ReportTypeError none tlr
              "structures containing pointers cannot be exported: '%0'")
        | none =>
            if p.isPointerType then (some t, sps, [])
            else if p.isArrayType then (none, sps, [])
            else
              let r := TypeExportableHelper p sps vd tlr
              (if r.1.isSome then some t else none, r.2.1, r.2.2)
    | .extVector e n =>
        if n < 2 ∨ n > 4 then (none, sps, [])
        else if ¬ e.isBuiltinType then (none, sps, [])
        else
          let r := TypeExportableHelper e sps vd tlr
          (if r.1.isSome then some t else none, r.2.1, r.2.2)
    | .constantArray e s =>
        -- `ConstantArrayTypeExportableHelper(CAT, ...)`, inlined here so the
        -- recursion is structural; the named wrapper below restates it and
        -- `TypeExportableHelper_constantArray` proves both agree.
        if e.isArrayType then
          (none, sps, ReportTypeError vd tlr
            "multidimensional arrays cannot be exported: '%0'")
        else
          let cont : Option CType × List CType × List Diag :=
            let r := TypeExportableHelper e sps vd tlr
            (if r.1.isSome then some (CType.constantArray e s) else none,
             r.2.1, r.2.2)
          match e with
          | .extVector base n =>
              if ¬ RSExportPrimitiveType.IsPrimitiveType base then
                (none, sps, ReportTypeError vd tlr
                  "vectors of non-primitive types cannot be exported: '%0'")
              else if n = 3 ∧ s ≠ 1 then
                (none, sps, ReportTypeError vd tlr
                  "arrays of width 3 vector types cannot be exported: '%0'")
              else cont
          | _ => cont
    | .other => (none, sps, [])
termination_by structural t

/-- The field loop of `TypeExportableHelper`'s `Record` case: each field's
canonical type must pass the same check (with the enclosing record threaded
as `TopLevelRecord`), and a bit-field aborts the record with a diagnostic
naming both record and field. -/
def recordFieldsExportable (rdName : String)
    (fs : List (String × CType × Bool × Nat)) (sps : List CType)
    (vd tlr : Option String) : Bool × List CType × List Diag :=
  match fs with
  | [] => (true, sps, [])
  | (fname, fty, fbit, _) :: rest =>
      let r := TypeExportableHelper fty sps vd tlr
      if r.1.isSome then
        if fbit then
          (false, r.2.1, r.2.2 ++
            [⟨"bit fields are not able to be exported: '%0.%1'",
              [rdName, fname]⟩])
        else
          let r2 := recordFieldsExportable rdName rest r.2.1 vd tlr
          (r2.1, r2.2.1, r.2.2 ++ r2.2.2)
      else (false, r.2.1, r.2.2)
termination_by structural fs

end

/-- `ConstantArrayTypeExportableHelper(CAT, SPS, Diags, SM, VD,
TopLevelRecord)`; `elem`/`size` are the element type and size of the array
`cat`. -/
def ConstantArrayTypeExportableHelper (elem : CType) (size : Nat)
    (cat : CType) (sps : List CType) (vd tlr : Option String) :
    Option CType × List CType × List Diag :=
  if elem.isArrayType then
    (none, sps, ReportTypeError vd tlr
      "multidimensional arrays cannot be exported: '%0'")
  else
    let cont : Option CType × List CType × List Diag :=
      let r := TypeExportableHelper elem sps vd tlr
      (if r.1.isSome then some cat else none, r.2.1, r.2.2)
    match elem with
    | .extVector base n =>
        if ¬ RSExportPrimitiveType.IsPrimitiveType base then
          (none, sps, ReportTypeError vd tlr
            "vectors of non-primitive types cannot be exported: '%0'")
        else if n = 3 ∧ size ≠ 1 then
          (none, sps, ReportTypeError vd tlr
            "arrays of width 3 vector types cannot be exported: '%0'")
        else cont
    | _ => cont

/-- The `ConstantArray` case of `TypeExportableHelper` (once past the
visited-set short-circuit) is exactly `ConstantArrayTypeExportableHelper`. -/
theorem TypeExportableHelper_constantArray (e : CType) (s : Nat)
    (sps : List CType) (vd tlr : Option String)
    (h : (CType.constantArray e s) ∉ sps) :
    TypeExportableHelper (.constantArray e s) sps vd tlr =
      ConstantArrayTypeExportableHelper e s (.constantArray e s) sps vd tlr := by
  rw [TypeExportableHelper, ConstantArrayTypeExportableHelper]
  simp only [if_neg h]

/-- `TypeExportable(T, Diags, SM, VD)`: run the helper with a fresh visited
set and no `TopLevelRecord`. -/
def TypeExportable (t : CType) (vd : Option String) :
    Option CType × List CType × List Diag :=
  TypeExportableHelper t [] vd none

/-- `RSExportVectorType::GetTypeName(EVT)`.  The local table is
`const char *Name[] = { cname"2", cname"3", cname"4" }` and the access is
`Name[EVT->getNumElements() - 2]` where `getNumElements()` is unsigned, so
the index is modelled as `(n - 2) mod 2^32`.  A `some` result is the
returned `StringRef` (possibly empty); `none` models an out-of-bounds read
of the table (undefined behaviour, no defined return value). -/
def RSExportVectorType.GetTypeName (elem : CType) (n : Nat) : Option String :=
  match elem with
  | .builtin bk =>
      if n < 1 ∨ n > 4 then some ""
      else
        match builtinCName bk with
        | some cname =>
            [cname ++ "2", cname ++ "3", cname ++ "4"].get?
              ((n + (2 ^ 32 - 2)) % 2 ^ 32)
        | none => some ""
  | _ => some ""

/-- `DUMMY_TYPE_NAME_FOR_RS_CONSTANT_ARRAY_TYPE`.  Modelled from the spec:
the fixed sentinel placeholder name for constant arrays (`"<ConstantArray>"`
in the headers, which are not among the sources). -/
def dummyConstantArrayTypeName : String := "<ConstantArray>"

/-- `Name.startswith(DUMMY_RS_TYPE_NAME_PREFIX)`, where the macro expands to
the one-character string `"<"`: true iff the first character is `'<'`. -/
def isDummyTypeName (s : String) : Bool := s.data.head? = some '<'

/-- `RSExportType::GetTypeName(T)`.  `GET_CANONICAL_TYPE` is the identity.
The `Pointer` case inlines `NormalizeType(PT, PointeeName, NULL, NULL,
NULL)` (exportability first, then recursive naming, then the non-empty
check) so the recursion stays structural; the wrapper
`RSExportType.NormalizeTypeName` below restates it.  A `none` result
propagates the undefined behaviour marker of
`RSExportVectorType.GetTypeName`; every defined path yields `some`. -/
def RSExportType.GetTypeName : CType → Option String
  | .builtin k => some ((builtinCName k).getD "")
  | .record m _ => some (if m.isUnion then "" else recordResolvedName m)
  | .pointer p =>
      match (TypeExportableHelper p [] none none).1 with
      | none => some ""
      | some _ =>
          match RSExportType.GetTypeName p with
          | none => none
          | some pn =>
              if pn = "" then some ""
              else some ("*" ++ pn)  -- "*" plus pointee name
  | .extVector e n => RSExportVectorType.GetTypeName e n
  | .constantArray _ _ => some dummyConstantArrayTypeName
  | .other => some ""

/-- `RSExportType::NormalizeType(T, TypeName, NULL, NULL, NULL)` (the pure,
diagnostic-free form every `Create` path uses): exportable and non-empty
canonical name; returns the name on success.  The source renames `T` to the
helper's result before naming it; `TypeExportableHelper_result_self` below
shows that result is `T` itself, so the name is taken of `t` directly. -/
def RSExportType.NormalizeTypeName (t : CType) : Option String :=
  match (TypeExportable t none).1 with
  | none => none
  | some _ =>
      match RSExportType.GetTypeName t with
      | none => none
      | some n => if n = "" then none else some n

/-- On success, `TypeExportableHelper` returns its (already canonical)
argument unchanged. -/
theorem TypeExportableHelper_result_self (t : CType) (sps : List CType)
    (vd tlr : Option String) :
    ∀ u sps1 ds, TypeExportableHelper t sps vd tlr = (some u, sps1, ds) →
      u = t := by
  intro u sps1 ds h
  rw [TypeExportableHelper.eq_def] at h
  repeat' split at h
  all_goals simp_all

/-! ## The export-type registry and the interning factory -/

/-- The payload of a constructed `RSExportType` object.  Nested types
(pointee, array element, record field types) are references into the
registry's heap, identified by the object's id; a record field is
`(name, type id, byte offset)`.  The `DataKind`/`Normalized` construction
flags are omitted: no operation modelled here ever reads them. -/
inductive ExportTypeData where
  | primitive (name : String) (dt : DataType)
  | pointer (name : String) (pointeeId : Nat)
  | vector (name : String) (dt : DataType) (numElements : Nat)
  | matrix (name : String) (dim : Nat)
  | constantArray (name : String) (elemId : Nat) (size : Nat)
  | record (name : String) (packed artificial : Bool) (allocSize : Nat)
      (fields : List (String × Nat × Nat))
deriving DecidableEq, Repr

/-- Assoc-list lookup with `Nat` keys (the heap of live objects). -/
def lookupNat {β : Type} : Nat → List (Nat × β) → Option β
  | _, [] => none
  | n, (k, v) :: rest => if k = n then some v else lookupNat n rest

/-- Modelled from the spec: the per-compilation `RSContext` as far as the
core needs it — the interning registry `canonical name → export type`, the
heap of live export-type objects (object identity is the `Nat` id), the
allocation counter, and the diagnostics emitted so far.  (`RSContext` itself
is not among the sources.) -/
structure RSContext where
  registry : List (String × Nat)
  heap : List (Nat × ExportTypeData)
  nextId : Nat
  diags : List Diag
deriving DecidableEq, Repr

/-- The empty per-compilation context. -/
def RSContext.empty : RSContext := ⟨[], [], 0, []⟩

/-- `RSContext::findExportType(TypeName)`. -/
def RSContext.findExportType (ctx : RSContext) (n : String) : Option Nat :=
  lookupString n ctx.registry

/-- Modelled from the spec: `RSContext::insertExportType(TypeName, ET)` is an
`llvm::StringMap::insert`, which keeps the existing entry when the key is
already present (the `TODO(zonr)` in `RSExportType::RSExportType` notes that
this unchecked result can be a failure); entries are never removed. -/
def RSContext.insertExportType (ctx : RSContext) (n : String) (id : Nat) :
    RSContext :=
  if (ctx.findExportType n).isSome then ctx
  else { ctx with registry := (n, id) :: ctx.registry }

/-- Dereference a live export-type object. -/
def RSContext.heapFind (ctx : RSContext) (id : Nat) : Option ExportTypeData :=
  lookupNat id ctx.heap

/-- In-place mutation of a live object (the field `push_back` of record
construction). -/
def RSContext.heapSet (ctx : RSContext) (id : Nat) (d : ExportTypeData) :
    RSContext :=
  { ctx with heap := ctx.heap.map (fun p => if p.1 = id then (id, d) else p) }

/-- `delete ET`: the object dies; nothing else (in particular no registry
entry) is cleaned up, since `~RSExportType` only frees the cached spec
type. -/
def RSContext.heapErase (ctx : RSContext) (id : Nat) : RSContext :=
  { ctx with heap := ctx.heap.filter (fun p => p.1 ≠ id) }

/-- `Diags->Report(...) << args`: append one diagnostic. -/
def RSContext.report (ctx : RSContext) (msg : String) (args : List String) :
    RSContext :=
  { ctx with diags := ctx.diags ++ [⟨msg, args⟩] }

/-- `RSExportType::RSExportType(Context, Class, Name)`: allocate the object
(a fresh id on the heap) and, as a side effect of construction, insert it
into the registry under `Name` — unless the name starts with the dummy
prefix `'<'`. -/
def RSExportTypeNew (ctx : RSContext) (name : String) (d : ExportTypeData) :
    Nat × RSContext :=
  let id := ctx.nextId
  let ctx1 : RSContext :=
    { ctx with heap := (id, d) :: ctx.heap, nextId := id + 1 }
  (id, if isDummyTypeName name then ctx1 else ctx1.insertExportType name id)

/-- `RSExportPrimitiveType::GetDataType(Context, T)`: builtin kinds through
the whitelist table (diagnosing unsupported ones), records through
`GetRSSpecificType`, everything else diagnosed as non-primitive. -/
def RSExportPrimitiveType.GetDataType (ctx : RSContext) (t : CType) :
    DataType × RSContext :=
  match t with
  | .builtin k =>
      match builtinDataType k with
      | some dt => (dt, ctx)
      | none =>
          (.unknown,
           ctx.report "built-in type cannot be exported: '%0'" [t.typeClassName])
  | .record m fs => (RSExportPrimitiveType.GetRSSpecificType (.record m fs), ctx)
  | _ =>
      (.unknown,
       ctx.report "primitive type cannot be exported: '%0'" [t.typeClassName])

/-- `RSExportPrimitiveType::Create(Context, T, TypeName, DK, Normalized)`:
fails on an unknown data type or an empty name, otherwise constructs (and
thereby interns). -/
def RSExportPrimitiveType.Create (ctx : RSContext) (t : CType)
    (tyName : String) : Option Nat × RSContext :=
  let r := RSExportPrimitiveType.GetDataType ctx t
  if r.1 = .unknown ∨ tyName = "" then (none, r.2)
  else
    let rn := RSExportTypeNew r.2 tyName (.primitive tyName r.1)
    (some rn.1, rn.2)

/-- `RSExportPrimitiveType::Create(Context, T, DK)` (the two-argument
overload used for the pointee of a multi-level pointer): normalize, require
a builtin type class, then construct. -/
def RSExportPrimitiveType.CreateFromType (ctx : RSContext) (t : CType) :
    Option Nat × RSContext :=
  match RSExportType.NormalizeTypeName t with
  | some tyName =>
      if RSExportPrimitiveType.IsPrimitiveType t then
        RSExportPrimitiveType.Create ctx t tyName
      else (none, ctx)
  | none => (none, ctx)

/-- `RSExportVectorType::Create(Context, EVT, TypeName, DK, Normalized)`:
the element's data type must resolve; the element count is stored as is. -/
def RSExportVectorType.Create (ctx : RSContext) (elem : CType) (n : Nat)
    (tyName : String) : Option Nat × RSContext :=
  let r := RSExportPrimitiveType.GetDataType ctx elem
  if r.1 ≠ .unknown then
    let rn := RSExportTypeNew r.2 tyName (.vector tyName r.1 n)
    (some rn.1, rn.2)
  else (none, r.2)

/-- `RSExportMatrixType::Create(Context, RT, TypeName, Dim)`: when the struct
definition is available it must contain exactly one field, a constant-size
`float` array of length `Dim * Dim`; each deviation has its own diagnostic.
Without a definition the struct is assumed correct. -/
def RSExportMatrixType.Create (ctx : RSContext) (m : RecMeta)
    (fs : List (String × CType × Bool × Nat)) (tyName : String) (dim : Nat) :
    Option Nat × RSContext :=
  if m.hasDef then
    match fs with
    | [] =>
        (none, ctx.report
          "invalid matrix struct: must have 1 field for saving values: '%0'"
          [m.rawName])
    | (_, fty, _, _) :: rest =>
        match fty with
        | .constantArray elemTy sz =>
            match elemTy with
            | .builtin .float =>
                if sz ≠ dim * dim then
                  (none, ctx.report
                    "invalid matrix struct: first field should be an array with size %0: '%1'"
                    [toString (dim * dim), m.rawName])
                else if rest ≠ [] then
                  (none, ctx.report
                    "invalid matrix struct: must have exactly 1 field: '%0'"
                    [m.rawName])
                else
                  let rn := RSExportTypeNew ctx tyName (.matrix tyName dim)
                  (some rn.1, rn.2)
            | _ =>
                (none, ctx.report
                  "invalid matrix struct: first field should be a float array: '%0'"
                  [m.rawName])
        | _ =>
            (none, ctx.report
              "invalid matrix struct: first field should be an array with constant size: '%0'"
              [m.rawName])
  else
    let rn := RSExportTypeNew ctx tyName (.matrix tyName dim)
    (some rn.1, rn.2)

mutual

/-- `RSExportType::Create(Context, T, TypeName)` (the three-argument
overload): return the interned instance if the name is already in the
registry, otherwise dispatch on the structural kind to the matching concrete
constructor.  The recursive per-kind constructors
(`RSExportRecordType::Create`, `RSExportPointerType::Create`,
`RSExportConstantArrayType::Create`) are inlined here so the recursion is
structural on `t`; the named wrappers below restate them.  Nested types are
created through the two-argument `RSExportType::Create(Context, T)` =
`NormalizeTypeName` followed by this function. -/
def RSExportType.CreateByName (ctx : RSContext) (t : CType)
    (tyName : String) : Option Nat × RSContext :=
  match ctx.findExportType tyName with
  | some id => (some id, ctx)
  | none =>
      match t with
      | .record m fs =>
          match RSExportPrimitiveType.GetRSSpecificTypeByName tyName with
          | .unknown =>
              -- user-defined type: RSExportRecordType::Create(Context, RT,
              -- TypeName), mIsArtificial = false; the constructor interns
              -- the record before the field loop runs
              if m.hasDef then
                let rn := RSExportTypeNew ctx tyName
                  (.record tyName m.packed false (m.sizeBits >>> 3) [])
                recordFieldsCreate rn.2 m.rawName tyName m.packed false
                  (m.sizeBits >>> 3) rn.1 fs []
              else (none, ctx)  -- assert "struct is not defined in this module"
          | .rsMatrix2x2 => RSExportMatrixType.Create ctx m fs tyName 2
          | .rsMatrix3x3 => RSExportMatrixType.Create ctx m fs tyName 3
          | .rsMatrix4x4 => RSExportMatrixType.Create ctx m fs tyName 4
          | _ => RSExportPrimitiveType.Create ctx (.record m fs) tyName
      | .builtin k => RSExportPrimitiveType.Create ctx (.builtin k) tyName
      | .pointer p =>
          -- RSExportPointerType::Create(Context, PT, TypeName)
          let r :=
            if p.isPointerType then
              -- double or higher dimension of pointer, export as int*
              RSExportPrimitiveType.CreateFromType ctx (.builtin .int)
            else
              match RSExportType.NormalizeTypeName p with
              | some pn => RSExportType.CreateByName ctx p pn
              | none => (none, ctx)
          match r.1 with
          | none => (none, r.2)  -- diagnostic already emitted for the pointee
          | some pointeeId =>
              let rn := RSExportTypeNew r.2 tyName (.pointer tyName pointeeId)
              (some rn.1, rn.2)
      | .extVector e n => RSExportVectorType.Create ctx e n tyName
      | .constantArray e s =>
          -- RSExportConstantArrayType::Create(Context, CAT)
          let r :=
            match RSExportType.NormalizeTypeName e with
            | some en => RSExportType.CreateByName ctx e en
            | none => (none, ctx)
          match r.1 with
          | none => (none, r.2)
          | some elemId =>
              let rn := RSExportTypeNew r.2 dummyConstantArrayTypeName
                (.constantArray dummyConstantArrayTypeName elemId s)
              (some rn.1, rn.2)
      | .other =>
          (none,
           ctx.report "unknown type cannot be exported: '%0'"
             [CType.typeClassName .other])
termination_by structural t

/-- The field loop of `RSExportRecordType::Create`: a bit-field deletes the
partially built record object and aborts; otherwise each field's export type
is resolved through the registry entry point (`RSExportElement::CreateFromDecl`
— modelled from the spec: field types go through the same registry entry
point, `RSExportType::Create(Context, T)`), pushed with its byte offset on
success; a per-field failure emits the diagnostic naming record and field,
deletes the record object and aborts. -/
def recordFieldsCreate (ctx : RSContext) (rdName recName : String)
    (packed artificial : Bool) (allocSize : Nat) (id : Nat)
    (fs : List (String × CType × Bool × Nat))
    (acc : List (String × Nat × Nat)) : Option Nat × RSContext :=
  match fs with
  | [] => (some id, ctx)
  | (fname, fty, fbit, foff) :: rest =>
      if fbit then (none, ctx.heapErase id)  -- delete ERT; return NULL
      else
        let r :=
          match RSExportType.NormalizeTypeName fty with
          | some fn => RSExportType.CreateByName ctx fty fn
          | none => (none, ctx)
        match r.1 with
        | some fid =>
            let acc1 := acc ++ [(fname, fid, foff >>> 3)]
            let ctx1 := (r.2).heapSet id
              (.record recName packed artificial allocSize acc1)
            recordFieldsCreate ctx1 rdName recName packed artificial allocSize
              id rest acc1
        | none =>
            (none,
             ((r.2).report "field type cannot be exported: '%0.%1'"
               [rdName, fname]).heapErase id)
termination_by structural fs

end

/-- `RSExportType::Create(Context, T)` (the two-argument overload):
normalize the type, then create by canonical name. -/
def RSExportType.Create (ctx : RSContext) (t : CType) :
    Option Nat × RSContext :=
  match RSExportType.NormalizeTypeName t with
  | some tyName => RSExportType.CreateByName ctx t tyName
  | none => (none, ctx)

/-- `RSExportRecordType::Create(Context, RT, TypeName, mIsArtificial)`: needs
a definition; the constructor (which interns the name) runs before the field
loop. -/
def RSExportRecordType.Create (ctx : RSContext) (m : RecMeta)
    (fs : List (String × CType × Bool × Nat)) (tyName : String)
    (artificial : Bool) : Option Nat × RSContext :=
  if m.hasDef then
    let rn := RSExportTypeNew ctx tyName
      (.record tyName m.packed artificial (m.sizeBits >>> 3) [])
    recordFieldsCreate rn.2 m.rawName tyName m.packed artificial
      (m.sizeBits >>> 3) rn.1 fs []
  else (none, ctx)

/-- The `Record`/`DataTypeUnknown` branch of the three-argument `Create` is
exactly `RSExportRecordType::Create` with `mIsArtificial = false`. -/
theorem CreateByName_record_unknown (ctx : RSContext) (m : RecMeta)
    (fs : List (String × CType × Bool × Nat)) (tyName : String)
    (h1 : ctx.findExportType tyName = none)
    (h2 : RSExportPrimitiveType.GetRSSpecificTypeByName tyName = .unknown) :
    RSExportType.CreateByName ctx (.record m fs) tyName =
      RSExportRecordType.Create ctx m fs tyName false := by
  rw [RSExportType.CreateByName, RSExportRecordType.Create]
  simp only [h1, h2]

/-! ## The export-type object graph: `equals` and `keep` -/

/-- `ExportClass`: the tag of the six concrete export-type kinds. -/
inductive ExportClass where
  | primitive | pointer | vector | matrix | constantArray | record
deriving DecidableEq, Repr

/-- A constructed export-type object graph, as the `equals`/`keep` virtual
methods traverse it.  `id` is the object's identity (the pointer in the
source); nested types are the registry-owned objects the object references.
A record field carries `(name, type, byte offset)` as in
`RSExportRecordType::Field`. -/
inductive ExportTy where
  | primitive (id : Nat) (name : String) (dt : DataType)
  | pointer (id : Nat) (name : String) (pointee : ExportTy)
  | vector (id : Nat) (name : String) (dt : DataType) (numElem : Nat)
  | matrix (id : Nat) (name : String) (dim : Nat)
  | constantArray (id : Nat) (name : String) (elem : ExportTy) (size : Nat)
  | record (id : Nat) (name : String)
      (fields : List (String × ExportTy × Nat))
deriving Repr

/-- `RSExportType::getClass()`. -/
def ExportTy.getClass : ExportTy → ExportClass
  | .primitive .. => .primitive
  | .pointer .. => .pointer
  | .vector .. => .vector
  | .matrix .. => .matrix
  | .constantArray .. => .constantArray
  | .record .. => .record

mutual

/-- The virtual `equals` dispatch, `a.equals b` for `a->equals(E=b)`.
Every override first checks the parent chain (`CHECK_PARENT_EQUALITY`,
ultimately `RSExportType::equals`: same `ExportClass`; the base
`RSExportable::equals` — modelled from the spec — compares the exportable
kind, which is `EX_TYPE` for every export type), then the kind-specific
structure: data type (and element count for vectors), pointee equality
(receiver is `E`'s pointee), matrix dimension, array size plus element
equality (receiver is `this`'s element), record field count plus pairwise
field-type equality in order.  Names, ids and field offsets are never
compared. -/
def ExportTy.equalsFn : ExportTy → ExportTy → Bool
  | .primitive _ _ dt, e =>
      match e with
      | .primitive _ _ dt' => dt' == dt
      | _ => false
  | .pointer _ _ p, e =>
      match e with
      | .pointer _ _ p' => ExportTy.equalsFn p' p
      | _ => false
  | .vector _ _ dt n, e =>
      match e with
      | .vector _ _ dt' n' => dt' == dt && n' == n
      | _ => false
  | .matrix _ _ d, e =>
      match e with
      | .matrix _ _ d' => d' == d
      | _ => false
  | .constantArray _ _ el s, e =>
      match e with
      | .constantArray _ _ el' s' => s == s' && ExportTy.equalsFn el el'
      | _ => false
  | .record _ _ fs, e =>
      match e with
      | .record _ _ fs' => fs'.length == fs.length && equalsFields fs fs'
      | _ => false
termination_by a b => sizeOf a + sizeOf b

/-- The field loop of `RSExportRecordType::equals`: pairwise
`(*AI)->getType()->equals((*BI)->getType())` over both field sequences (the
caller has already ensured equal lengths). -/
def equalsFields : List (String × ExportTy × Nat) →
    List (String × ExportTy × Nat) → Bool
  | [], _ => true
  | _ :: _, [] => true
  | (_, t, _) :: rest, (_, t', _) :: rest' =>
      ExportTy.equalsFn t t' && equalsFields rest rest'
termination_by a b => sizeOf a + sizeOf b

end

/-- The reachability/keep state: the set of objects already marked
(`RSExportable::mKeep` — modelled from the spec: `keep()` marks the object
and reports whether it was newly marked) and the set of objects whose
cached backend (`mLLVMType`) conversion is still valid. -/
structure KeepState where
  kept : List Nat
  llvmValid : List Nat
deriving DecidableEq, Repr

/-- Modelled from the spec: `RSExportable::keep()` — idempotent marking:
returns `false` (and changes nothing) when the object is already marked,
otherwise marks it and returns `true`. -/
def RSExportableKeep (id : Nat) (s : KeepState) : Bool × KeepState :=
  if id ∈ s.kept then (false, s)
  else (true, { s with kept := id :: s.kept })

/-- `RSExportType::keep()`: delegate to the base, then invalidate the
converted LLVM type (`mLLVMType = NULL`). -/
def RSExportTypeKeep (id : Nat) (s : KeepState) : Bool × KeepState :=
  let r := RSExportableKeep id s
  if r.1 then (true, { r.2 with llvmValid := r.2.llvmValid.filter (· ≠ id) })
  else (false, r.2)

/-- The object's identity (`this`). -/
def ExportTy.rootId : ExportTy → Nat
  | .primitive i .. => i
  | .pointer i .. => i
  | .vector i .. => i
  | .matrix i .. => i
  | .constantArray i .. => i
  | .record i .. => i

mutual

/-- The virtual `keep` dispatch: the base classes' `keep` for primitive,
vector and matrix kinds (no override in the source); pointer and constant
array mark their nested type after a successful base call
(`RSExportPointerType::keep`, `RSExportConstantArrayType::keep`); a record
marks every field type (`RSExportRecordType::keep`).  A `false` from the
base short-circuits without recursing. -/
def ExportTy.keep : ExportTy → KeepState → Bool × KeepState
  | .primitive i _ _, s => RSExportTypeKeep i s
  | .vector i _ _ _, s => RSExportTypeKeep i s
  | .matrix i _ _, s => RSExportTypeKeep i s
  | .pointer i _ p, s =>
      let r := RSExportTypeKeep i s
      if r.1 then (true, (ExportTy.keep p r.2).2)
      else (false, r.2)
  | .constantArray i _ el _, s =>
      let r := RSExportTypeKeep i s
      if r.1 then (true, (ExportTy.keep el r.2).2)
      else (false, r.2)
  | .record i _ fs, s =>
      let r := RSExportTypeKeep i s
      if r.1 then (true, keepFields fs r.2)
      else (false, r.2)
termination_by structural t => t

/-- The field loop of `RSExportRecordType::keep`: mark every field type. -/
def keepFields : List (String × ExportTy × Nat) → KeepState → KeepState
  | [], s => s
  | (_, t, _) :: rest, s => keepFields rest (ExportTy.keep t s).2
termination_by structural fs => fs

end

/-- `t.keep()` called `n` times in sequence, returning the final state. -/
def keepIter : Nat → ExportTy → KeepState → KeepState
  | 0, _, s => s
  | n + 1, t, s => keepIter n t (ExportTy.keep t s).2

/-- The ids of the nested types one `keep()` call recursively marks:
pointee, element type, or every field type. -/
def ExportTy.childRootIds : ExportTy → List Nat
  | .primitive .. => []
  | .vector .. => []
  | .matrix .. => []
  | .pointer _ _ p => [p.rootId]
  | .constantArray _ _ el _ => [el.rootId]
  | .record _ _ fs => fs.map (fun f => f.2.1.rootId)

/-! ## Claim C10: the element-count guard of vector type-name resolution -/

/-- C10.  The claim states that for every fixed-vector element count outside
{2, 3, 4} the function returns the empty name before the three-entry table is
accessed.  The code's guard is `numElements < 1 || numElements > 4`, which
admits `numElements == 1`; the table `Name[3]` is then indexed at the
unsigned value `1 - 2 = 4294967295`, an out-of-bounds read (modelled as the
`none` result).  Counts 0 and ≥ 5 are indeed caught by the guard. -/
theorem claim_C10_vector_name_guard_oob :
    RSExportVectorType.GetTypeName (.builtin .int) 1 = none ∧
    RSExportVectorType.GetTypeName (.builtin .int) 0 = some "" ∧
    RSExportVectorType.GetTypeName (.builtin .int) 5 = some "" ∧
    RSExportVectorType.GetTypeName (.builtin .int) 2 = some "int2" := by
  refine ⟨?_, by decide, by decide, ?_⟩ <;>
    simp [RSExportVectorType.GetTypeName, builtinCName]

/-! ## Claim C5: multidimensional arrays are rejected -/

/-- C5.  Every constant-size array whose element type is itself an array is
rejected by `ConstantArrayTypeExportableHelper` with the diagnostic
"multidimensional arrays cannot be exported"; in particular `int vec[2][3]`
declared as a variable `vec` is rejected with that diagnostic naming the
variable. -/
theorem claim_C5_multidim_arrays_rejected :
    (∀ (e1 : CType) (s1 s2 : Nat) (cat : CType) (sps : List CType)
       (vd tlr : Option String),
      ConstantArrayTypeExportableHelper (.constantArray e1 s1) s2 cat sps vd tlr
        = (none, sps,
           ReportTypeError vd tlr
             "multidimensional arrays cannot be exported: '%0'")) ∧
    TypeExportable (.constantArray (.constantArray (.builtin .int) 3) 2)
        (some "vec")
      = (none, [],
         [⟨"multidimensional arrays cannot be exported: '%0'", ["vec"]⟩]) := by
  constructor
  · intro e1 s1 s2 cat sps vd tlr
    rw [ConstantArrayTypeExportableHelper]
    simp [CType.isArrayType]
  · decide

/-! ## Claim C9: RS-specific record names short-circuit the checker -/

/-- C9.  Whenever a type's canonical name resolves to a recognized
RS-specific matrix or object type, `TypeExportableHelper` succeeds
immediately, leaving the visited set untouched and emitting no diagnostic —
regardless of the visited set, the variable context, and any enclosing
`TopLevelRecord`.  (Union checks, definition checks, anonymity checks and
the field recursion are all skipped.) -/
theorem claim_C9_rs_specific_short_circuit
    (t : CType) (sps : List CType) (vd tlr : Option String)
    (h : RSExportPrimitiveType.GetRSSpecificType t ≠ .unknown) :
    TypeExportableHelper t sps vd tlr = (some t, sps, []) := by
  rw [TypeExportableHelper.eq_def]
  by_cases hm : t ∈ sps
  · simp [hm]
  · cases t with
    | record m fs => simp [hm, h]
    | builtin k => simp [RSExportPrimitiveType.GetRSSpecificType] at h
    | pointer p => simp [RSExportPrimitiveType.GetRSSpecificType] at h
    | extVector e n => simp [RSExportPrimitiveType.GetRSSpecificType] at h
    | constantArray e s => simp [RSExportPrimitiveType.GetRSSpecificType] at h
    | other => simp [RSExportPrimitiveType.GetRSSpecificType] at h

/-- A user-redeclared `rs_allocation` struct with no definition in the
module, a flexible array member flag and a bit-field field: none of that is
inspected. -/
def rsAllocUndefined : CType :=
  .record ⟨"rs_allocation", none, [], false, false, true, false, false, 0⟩
    [("b", .builtin .int, true, 0)]

/-- Witness for C9: the pathological `rs_allocation` record above is accepted
unchanged even nested inside a top-level record context and with a non-empty
visited set. -/
theorem claim_C9_witness :
    RSExportPrimitiveType.GetRSSpecificType rsAllocUndefined ≠ .unknown ∧
    TypeExportableHelper rsAllocUndefined [CType.other] (some "v")
        (some "Outer") = (some rsAllocUndefined, [CType.other], []) :=
  ⟨by decide,
   claim_C9_rs_specific_short_circuit rsAllocUndefined [CType.other]
     (some "v") (some "Outer") (by decide)⟩

/-! ## Claim C3: pointers and the `TopLevelRecord` context -/

/-- C3.  (i) With a `TopLevelRecord` set, every pointer type is rejected with
the diagnostic naming the enclosing record.  (ii) At top level, a pointer
whose pointee is neither a pointer nor an array is accepted exactly when its
pointee is exportable.  (iii) A pointer-to-pointer is accepted at top level
with no recursion into the pointee (state and diagnostics untouched).
(iv) A pointer to an array type is rejected at top level (silently). -/
theorem claim_C3_pointer_rules :
    (∀ (p : CType) (sps : List CType) (vd : Option String) (rn : String),
      CType.pointer p ∉ sps →
      TypeExportableHelper (.pointer p) sps vd (some rn) =
        (none, sps,
         [⟨"structures containing pointers cannot be exported: '%0'", [rn]⟩])) ∧
    (∀ (p : CType) (sps : List CType) (vd : Option String),
      CType.pointer p ∉ sps → p.isPointerType = false → p.isArrayType = false →
      ((TypeExportableHelper (.pointer p) sps vd none).1.isSome ↔
       (TypeExportableHelper p sps vd none).1.isSome)) ∧
    (∀ (q : CType) (sps : List CType) (vd : Option String),
      CType.pointer (.pointer q) ∉ sps →
      TypeExportableHelper (.pointer (.pointer q)) sps vd none =
        (some (.pointer (.pointer q)), sps, [])) ∧
    (∀ (e : CType) (s : Nat) (sps : List CType) (vd : Option String),
      CType.pointer (.constantArray e s) ∉ sps →
      TypeExportableHelper (.pointer (.constantArray e s)) sps vd none =
        (none, sps, [])) := by
  refine ⟨?_, ?_, ?_, ?_⟩
  · intro p sps vd rn hm
    rw [TypeExportableHelper.eq_def]
    simp [hm, ReportTypeError]
  · intro p sps vd hm hp ha
    conv_lhs => rw [TypeExportableHelper.eq_def]
    simp only [if_neg hm]
    simp [hp, ha]
  · intro q sps vd hm
    rw [TypeExportableHelper.eq_def]
    simp [hm, CType.isPointerType]
  · intro e s sps vd hm
    rw [TypeExportableHelper.eq_def]
    simp [hm, CType.isPointerType, CType.isArrayType]

/-- Witness for C3: `int **` inside a struct context `"S"` is rejected
naming `S`; at top level `int *` is accepted (pointee `int` exportable) and
`float (*)[2]` is rejected. -/
theorem claim_C3_witness :
    (CType.pointer (.pointer (.builtin .int)) ∉ ([] : List CType) ∧
     TypeExportableHelper (.pointer (.pointer (.builtin .int))) [] none
        (some "S") =
       (none, [],
        [⟨"structures containing pointers cannot be exported: '%0'", ["S"]⟩])) ∧
    (CType.pointer (.builtin .int) ∉ ([] : List CType) ∧
     (CType.builtin .int).isPointerType = false ∧
     (CType.builtin .int).isArrayType = false ∧
     ((TypeExportableHelper (.pointer (.builtin .int)) [] none none).1.isSome ↔
      (TypeExportableHelper (.builtin .int) [] none none).1.isSome)) ∧
    TypeExportableHelper (.pointer (.pointer (.builtin .int))) [] none none =
      (some (.pointer (.pointer (.builtin .int))), [], []) ∧
    TypeExportableHelper (.pointer (.constantArray (.builtin .float) 2)) []
        none none = (none, [], []) :=
  ⟨⟨by decide,
    claim_C3_pointer_rules.1 (.pointer (.builtin .int)) [] none "S" (by decide)⟩,
   ⟨by decide, by decide, by decide,
    claim_C3_pointer_rules.2.1 (.builtin .int) [] none (by decide) (by decide)
      (by decide)⟩,
   claim_C3_pointer_rules.2.2.1 (.builtin .int) [] none (by decide),
   claim_C3_pointer_rules.2.2.2 (.builtin .float) 2 [] none (by decide)⟩

/-! ## Claim C6: width-3 vectors inside constant arrays -/

/-- C6.  (i) A constant array of width-3 fixed vectors is rejected whenever
the array length differs from 1 (for any element base type, visited set and
context).  (ii) A top-level constant array of width-2 or width-4 vectors of
a builtin base scalar carries no length restriction: it is accepted, for any
length, exactly when the base scalar is on the exportable whitelist. -/
theorem claim_C6_vec3_array_length :
    (∀ (base : CType) (s2 : Nat) (cat : CType) (sps : List CType)
       (vd tlr : Option String), s2 ≠ 1 →
      (ConstantArrayTypeExportableHelper (.extVector base 3) s2 cat sps vd
        tlr).1 = none) ∧
    (∀ (k : BuiltinKind) (w s2 : Nat) (vd : Option String), w = 2 ∨ w = 4 →
      ((TypeExportable (.constantArray (.extVector (.builtin k) w) s2)
          vd).1.isSome ↔ (builtinCName k).isSome)) := by
  constructor
  · intro base s2 cat sps vd tlr hs
    rw [ConstantArrayTypeExportableHelper]
    simp only [CType.isArrayType, Bool.false_eq_true, if_false]
    by_cases hb : RSExportPrimitiveType.IsPrimitiveType base
    · simp [hb, hs]
    · simp [hb]
  · intro k w s2 vd hw
    rw [TypeExportable, TypeExportableHelper.eq_def]
    have hw3 : ¬ (w = 3) := by rcases hw with h | h <;> omega
    have hw24 : ¬ (w < 2 ∨ w > 4) := by rcases hw with h | h <;> omega
    simp only [List.not_mem_nil, if_neg, if_false]
    rw [TypeExportableHelper.eq_def]
    simp only [List.not_mem_nil]
    rw [TypeExportableHelper.eq_def]
    by_cases hk : (builtinCName k).isSome <;>
      simp [hw3, hw24, CType.isArrayType, CType.isBuiltinType,
        RSExportPrimitiveType.IsPrimitiveType, hk]

/-- Witness for C6: `float3 a[4]` is rejected; `float2 a[7]` and
`wchar4 a[7]` decide by the base scalar's exportability. -/
theorem claim_C6_witness :
    ((4 : Nat) ≠ 1 ∧
     (ConstantArrayTypeExportableHelper (.extVector (.builtin .float) 3) 4
        (.constantArray (.extVector (.builtin .float) 3) 4) [] (some "a")
        none).1 = none) ∧
    (((2 : Nat) = 2 ∨ (2 : Nat) = 4) ∧
     ((TypeExportable (.constantArray (.extVector (.builtin .float) 2) 7)
         (some "a")).1.isSome ↔ (builtinCName BuiltinKind.float).isSome)) ∧
    (((4 : Nat) = 2 ∨ (4 : Nat) = 4) ∧
     ((TypeExportable (.constantArray (.extVector (.builtin .wchar) 4) 7)
         (some "a")).1.isSome ↔ (builtinCName BuiltinKind.wchar).isSome)) :=
  ⟨⟨by decide,
    claim_C6_vec3_array_length.1 (.builtin .float) 4
      (.constantArray (.extVector (.builtin .float) 3) 4) [] (some "a") none
      (by decide)⟩,
   ⟨Or.inl rfl,
    claim_C6_vec3_array_length.2 BuiltinKind.float 2 7 (some "a")
      (Or.inl rfl)⟩,
   ⟨Or.inr rfl,
    claim_C6_vec3_array_length.2 BuiltinKind.wchar 4 7 (some "a")
      (Or.inr rfl)⟩⟩

/-! ## Claim C4: matrix-struct validation -/

/-- C4.  With the struct definition available, `RSExportMatrixType::Create`
accepts exactly the structs with a single field that is a constant-size
`float` array of length `dim * dim`; and each deviation — no fields, first
field not a constant-size array, element type not `float`, wrong array
length, more than one field — is rejected with its own diagnostic, the five
messages being pairwise distinct. -/
theorem claim_C4_matrix_struct_shape :
    (∀ (ctx : RSContext) (m : RecMeta)
       (fs : List (String × CType × Bool × Nat)) (tyName : String) (dim : Nat),
      m.hasDef = true →
      ((RSExportMatrixType.Create ctx m fs tyName dim).1.isSome ↔
        ∃ fn fb fo,
          fs = [(fn, CType.constantArray (.builtin .float) (dim * dim), fb,
                 fo)])) ∧
    (∀ (ctx : RSContext) (m : RecMeta) (tyName : String) (dim : Nat),
      m.hasDef = true →
      RSExportMatrixType.Create ctx m [] tyName dim =
        (none, ctx.report
          "invalid matrix struct: must have 1 field for saving values: '%0'"
          [m.rawName])) ∧
    (∀ (ctx : RSContext) (m : RecMeta) (tyName : String) (dim : Nat)
       (fn : String) (fty : CType) (fb : Bool) (fo : Nat)
       (rest : List (String × CType × Bool × Nat)),
      m.hasDef = true → (∀ e s, fty ≠ .constantArray e s) →
      RSExportMatrixType.Create ctx m ((fn, fty, fb, fo) :: rest) tyName dim =
        (none, ctx.report
          "invalid matrix struct: first field should be an array with constant size: '%0'"
          [m.rawName])) ∧
    (∀ (ctx : RSContext) (m : RecMeta) (tyName : String) (dim : Nat)
       (fn : String) (e : CType) (sz : Nat) (fb : Bool) (fo : Nat)
       (rest : List (String × CType × Bool × Nat)),
      m.hasDef = true → e ≠ .builtin .float →
      RSExportMatrixType.Create ctx m
          ((fn, .constantArray e sz, fb, fo) :: rest) tyName dim =
        (none, ctx.report
          "invalid matrix struct: first field should be a float array: '%0'"
          [m.rawName])) ∧
    (∀ (ctx : RSContext) (m : RecMeta) (tyName : String) (dim : Nat)
       (fn : String) (sz : Nat) (fb : Bool) (fo : Nat)
       (rest : List (String × CType × Bool × Nat)),
      m.hasDef = true → sz ≠ dim * dim →
      RSExportMatrixType.Create ctx m
          ((fn, .constantArray (.builtin .float) sz, fb, fo) :: rest) tyName
          dim =
        (none, ctx.report
          "invalid matrix struct: first field should be an array with size %0: '%1'"
          [toString (dim * dim), m.rawName])) ∧
    (∀ (ctx : RSContext) (m : RecMeta) (tyName : String) (dim : Nat)
       (fn : String) (fb : Bool) (fo : Nat) (f2 : String × CType × Bool × Nat)
       (rest : List (String × CType × Bool × Nat)),
      m.hasDef = true →
      RSExportMatrixType.Create ctx m
          ((fn, .constantArray (.builtin .float) (dim * dim), fb, fo) :: f2 ::
            rest) tyName dim =
        (none, ctx.report
          "invalid matrix struct: must have exactly 1 field: '%0'"
          [m.rawName])) ∧
    List.Pairwise (fun a b => a ≠ b)
      ["invalid matrix struct: must have 1 field for saving values: '%0'",
       "invalid matrix struct: first field should be an array with constant size: '%0'",
       "invalid matrix struct: first field should be a float array: '%0'",
       "invalid matrix struct: first field should be an array with size %0: '%1'",
       "invalid matrix struct: must have exactly 1 field: '%0'"] := by
  refine ⟨?_, ?_, ?_, ?_, ?_, ?_, by decide⟩
  · intro ctx m fs tyName dim hdef
    rw [RSExportMatrixType.Create.eq_def]
    simp only [hdef, if_true]
    cases fs with
    | nil => simp
    | cons f rest =>
        obtain ⟨fn, fty, fb, fo⟩ := f
        cases fty with
        | constantArray e sz =>
            cases e with
            | builtin k =>
                cases k with
                | float =>
                    by_cases hsz : sz = dim * dim
                    · subst hsz
                      cases rest with
                      | nil => simp
                      | cons f2 rest2 => simp
                    · simp [hsz]
                | bool => simp
                | char => simp
                | uchar => simp
                | short => simp
                | ushort => simp
                | int => simp
                | uint => simp
                | long => simp
                | ulong => simp
                | double => simp
                | wchar => simp
            | record m2 fs2 => simp
            | pointer p2 => simp
            | extVector e2 n2 => simp
            | constantArray e2 s2 => simp
            | other => simp
        | builtin k2 => simp
        | record m2 fs2 => simp
        | pointer p2 => simp
        | extVector e2 n2 => simp
        | other => simp
  · intro ctx m tyName dim hdef
    rw [RSExportMatrixType.Create.eq_def]; simp [hdef]
  · intro ctx m tyName dim fn fty fb fo rest hdef hne
    rw [RSExportMatrixType.Create.eq_def, if_pos hdef]
    cases fty with
    | constantArray e2 s2 => exact absurd rfl (hne e2 s2)
    | builtin k2 => rfl
    | record m2 fs2 => rfl
    | pointer p2 => rfl
    | extVector e2 n2 => rfl
    | other => rfl
  · intro ctx m tyName dim fn e sz fb fo rest hdef hne
    rw [RSExportMatrixType.Create.eq_def, if_pos hdef]
    cases e with
    | builtin k2 => cases k2 <;> first | exact absurd rfl hne | rfl
    | record m2 fs2 => rfl
    | pointer p2 => rfl
    | extVector e2 n2 => rfl
    | constantArray e2 s2 => rfl
    | other => rfl
  · intro ctx m tyName dim fn sz fb fo rest hdef hsz
    rw [RSExportMatrixType.Create.eq_def]
    simp [hdef, hsz]
  · intro ctx m tyName dim fn fb fo f2 rest hdef
    rw [RSExportMatrixType.Create.eq_def]
    simp [hdef]

/-- The host-side declaration of a well-formed user `rs_matrix2x2`. -/
def mat2Meta : RecMeta :=
  ⟨"rs_matrix2x2", none, [], true, false, false, false, false, 128⟩

/-- Witness for C4: at dimension 2, `struct rs_matrix2x2 { float m[4]; }` is
accepted and `struct rs_matrix2x2 { float m[3]; }` is rejected with the
wrong-size diagnostic. -/
theorem claim_C4_witness :
    (mat2Meta.hasDef = true ∧
     ((RSExportMatrixType.Create RSContext.empty mat2Meta
         [("m", .constantArray (.builtin .float) 4, false, 0)] "rs_matrix2x2"
         2).1.isSome ↔
       ∃ fn fb fo,
         [("m", CType.constantArray (.builtin .float) 4, false, 0)] =
           [(fn, CType.constantArray (.builtin .float) (2 * 2), fb, fo)])) ∧
    RSExportMatrixType.Create RSContext.empty mat2Meta
        [("m", .constantArray (.builtin .float) 3, false, 0)] "rs_matrix2x2"
        2 =
      (none, RSContext.empty.report
        "invalid matrix struct: first field should be an array with size %0: '%1'"
        [toString (2 * 2), "rs_matrix2x2"]) :=
  ⟨⟨rfl,
    claim_C4_matrix_struct_shape.1 RSContext.empty mat2Meta
      [("m", .constantArray (.builtin .float) 4, false, 0)] "rs_matrix2x2" 2
      rfl⟩,
   claim_C4_matrix_struct_shape.2.2.2.2.1 RSContext.empty mat2Meta
     "rs_matrix2x2" 2 "m" 3 false 0 [] rfl (by decide)⟩

/-! ## Claim C7: `equals` is reflexive, symmetric, and purely structural -/

/-- `==` from a decidable equality is symmetric. -/
theorem beqSymm {α : Type} [DecidableEq α] (a b : α) : (a == b) = (b == a) := by
  by_cases h : a = b
  · subst h; rfl
  · rw [beq_eq_false_iff_ne.mpr h, beq_eq_false_iff_ne.mpr (Ne.symm h)]

mutual

theorem ExportTy.equalsFn_refl : ∀ t : ExportTy, ExportTy.equalsFn t t = true
  | .primitive _ _ dt => by simp [ExportTy.equalsFn]
  | .pointer _ _ p => by
      simp only [ExportTy.equalsFn]; exact ExportTy.equalsFn_refl p
  | .vector _ _ dt n => by simp [ExportTy.equalsFn]
  | .matrix _ _ d => by simp [ExportTy.equalsFn]
  | .constantArray _ _ el s => by
      simp only [ExportTy.equalsFn, Bool.and_eq_true, beq_self_eq_true]
      exact ⟨by simp, ExportTy.equalsFn_refl el⟩
  | .record _ _ fs => by
      simp only [ExportTy.equalsFn, Bool.and_eq_true, beq_self_eq_true]
      exact ⟨by simp, equalsFields_refl fs⟩

theorem equalsFields_refl :
    ∀ fs : List (String × ExportTy × Nat), equalsFields fs fs = true
  | [] => by simp [equalsFields]
  | (n, t, o) :: rest => by
      simp only [equalsFields, Bool.and_eq_true]
      exact ⟨ExportTy.equalsFn_refl t, equalsFields_refl rest⟩

end

mutual

theorem ExportTy.equalsFn_symm :
    ∀ a b : ExportTy, ExportTy.equalsFn a b = ExportTy.equalsFn b a
  | .primitive _ _ dt, .primitive _ _ dt' => by
      simp only [ExportTy.equalsFn]; exact beqSymm dt' dt
  | .pointer _ _ p, .pointer _ _ p' => by
      simp only [ExportTy.equalsFn]; exact ExportTy.equalsFn_symm p' p
  | .vector _ _ dt n, .vector _ _ dt' n' => by
      simp only [ExportTy.equalsFn]
      rw [beqSymm dt' dt, beqSymm n' n]
  | .matrix _ _ d, .matrix _ _ d' => by
      simp only [ExportTy.equalsFn]; exact beqSymm d' d
  | .constantArray _ _ el s, .constantArray _ _ el' s' => by
      simp only [ExportTy.equalsFn]
      rw [beqSymm s s', ExportTy.equalsFn_symm el el']
  | .record _ _ fs, .record _ _ fs' => by
      simp only [ExportTy.equalsFn]
      rw [beqSymm fs'.length fs.length, equalsFields_symm fs fs']
  | .primitive _ _ _, .pointer _ _ _ => by simp [ExportTy.equalsFn]
  | .primitive _ _ _, .vector _ _ _ _ => by simp [ExportTy.equalsFn]
  | .primitive _ _ _, .matrix _ _ _ => by simp [ExportTy.equalsFn]
  | .primitive _ _ _, .constantArray _ _ _ _ => by simp [ExportTy.equalsFn]
  | .primitive _ _ _, .record _ _ _ => by simp [ExportTy.equalsFn]
  | .pointer _ _ _, .primitive _ _ _ => by simp [ExportTy.equalsFn]
  | .pointer _ _ _, .vector _ _ _ _ => by simp [ExportTy.equalsFn]
  | .pointer _ _ _, .matrix _ _ _ => by simp [ExportTy.equalsFn]
  | .pointer _ _ _, .constantArray _ _ _ _ => by simp [ExportTy.equalsFn]
  | .pointer _ _ _, .record _ _ _ => by simp [ExportTy.equalsFn]
  | .vector _ _ _ _, .primitive _ _ _ => by simp [ExportTy.equalsFn]
  | .vector _ _ _ _, .pointer _ _ _ => by simp [ExportTy.equalsFn]
  | .vector _ _ _ _, .matrix _ _ _ => by simp [ExportTy.equalsFn]
  | .vector _ _ _ _, .constantArray _ _ _ _ => by simp [ExportTy.equalsFn]
  | .vector _ _ _ _, .record _ _ _ => by simp [ExportTy.equalsFn]
  | .matrix _ _ _, .primitive _ _ _ => by simp [ExportTy.equalsFn]
  | .matrix _ _ _, .pointer _ _ _ => by simp [ExportTy.equalsFn]
  | .matrix _ _ _, .vector _ _ _ _ => by simp [ExportTy.equalsFn]
  | .matrix _ _ _, .constantArray _ _ _ _ => by simp [ExportTy.equalsFn]
  | .matrix _ _ _, .record _ _ _ => by simp [ExportTy.equalsFn]
  | .constantArray _ _ _ _, .primitive _ _ _ => by simp [ExportTy.equalsFn]
  | .constantArray _ _ _ _, .pointer _ _ _ => by simp [ExportTy.equalsFn]
  | .constantArray _ _ _ _, .vector _ _ _ _ => by simp [ExportTy.equalsFn]
  | .constantArray _ _ _ _, .matrix _ _ _ => by simp [ExportTy.equalsFn]
  | .constantArray _ _ _ _, .record _ _ _ => by simp [ExportTy.equalsFn]
  | .record _ _ _, .primitive _ _ _ => by simp [ExportTy.equalsFn]
  | .record _ _ _, .pointer _ _ _ => by simp [ExportTy.equalsFn]
  | .record _ _ _, .vector _ _ _ _ => by simp [ExportTy.equalsFn]
  | .record _ _ _, .matrix _ _ _ => by simp [ExportTy.equalsFn]
  | .record _ _ _, .constantArray _ _ _ _ => by simp [ExportTy.equalsFn]
termination_by a b => sizeOf a + sizeOf b

theorem equalsFields_symm :
    ∀ fs fs' : List (String × ExportTy × Nat),
      equalsFields fs fs' = equalsFields fs' fs
  | [], [] => rfl
  | [], _ :: _ => by simp [equalsFields]
  | _ :: _, [] => by simp [equalsFields]
  | (n, t, o) :: rest, (n', t', o') :: rest' => by
      simp only [equalsFields]
      rw [ExportTy.equalsFn_symm t t', equalsFields_symm rest rest']
termination_by a b => sizeOf a + sizeOf b

end

/-- `equals` implies identical `ExportClass`. -/
theorem ExportTy.equalsFn_class (a b : ExportTy)
    (h : ExportTy.equalsFn a b = true) : a.getClass = b.getClass := by
  cases a <;> cases b <;>
    simp_all [ExportTy.equalsFn, ExportTy.getClass]

/-- With equal lengths, the record field loop is pairwise `equals` of the
field types of the zipped sequences. -/
theorem equalsFields_iff_zip :
    ∀ fs fs' : List (String × ExportTy × Nat), fs.length = fs'.length →
      (equalsFields fs fs' = true ↔
        ∀ pr ∈ fs.zip fs', ExportTy.equalsFn pr.1.2.1 pr.2.2.1 = true)
  | [], [] => by simp [equalsFields]
  | [], _ :: _ => by simp
  | _ :: _, [] => by simp
  | (n, t, o) :: rest, (n', t', o') :: rest' => by
      intro hl
      simp only [List.length_cons, Nat.succ.injEq] at hl
      simp only [equalsFields, Bool.and_eq_true, List.zip_cons_cons,
        List.mem_cons, forall_eq_or_imp]
      rw [equalsFields_iff_zip rest rest' hl]

/-- C7.  `equals` is reflexive and symmetric; equal types have the same
`ExportClass`; and for each kind the result is exactly the kind-specific
structural comparison — with object ids, type names, field names and byte
offsets universally quantified on both sides, so they never influence the
result.  Records compare by field count and pairwise field-type equality in
order. -/
theorem claim_C7_equals_structural :
    (∀ t : ExportTy, ExportTy.equalsFn t t = true) ∧
    (∀ a b : ExportTy, ExportTy.equalsFn a b = ExportTy.equalsFn b a) ∧
    (∀ a b : ExportTy, ExportTy.equalsFn a b = true →
      a.getClass = b.getClass) ∧
    (∀ i1 n1 dt1 i2 n2 dt2,
      (ExportTy.equalsFn (.primitive i1 n1 dt1) (.primitive i2 n2 dt2)
        = true) ↔ dt1 = dt2) ∧
    (∀ i1 n1 p1 i2 n2 p2,
      (ExportTy.equalsFn (.pointer i1 n1 p1) (.pointer i2 n2 p2) = true) ↔
        ExportTy.equalsFn p1 p2 = true) ∧
    (∀ i1 n1 dt1 c1 i2 n2 dt2 c2,
      (ExportTy.equalsFn (.vector i1 n1 dt1 c1) (.vector i2 n2 dt2 c2)
        = true) ↔ (dt1 = dt2 ∧ c1 = c2)) ∧
    (∀ i1 n1 d1 i2 n2 d2,
      (ExportTy.equalsFn (.matrix i1 n1 d1) (.matrix i2 n2 d2) = true) ↔
        d1 = d2) ∧
    (∀ i1 n1 e1 s1 i2 n2 e2 s2,
      (ExportTy.equalsFn (.constantArray i1 n1 e1 s1)
        (.constantArray i2 n2 e2 s2) = true) ↔
        (s1 = s2 ∧ ExportTy.equalsFn e1 e2 = true)) ∧
    (∀ i1 n1 fs1 i2 n2 fs2,
      (ExportTy.equalsFn (.record i1 n1 fs1) (.record i2 n2 fs2) = true) ↔
        (fs1.length = fs2.length ∧
         ∀ pr ∈ fs1.zip fs2,
           ExportTy.equalsFn pr.1.2.1 pr.2.2.1 = true)) := by
  refine ⟨ExportTy.equalsFn_refl, ExportTy.equalsFn_symm,
    ExportTy.equalsFn_class, ?_, ?_, ?_, ?_, ?_, ?_⟩
  · intro i1 n1 dt1 i2 n2 dt2
    simp only [ExportTy.equalsFn, beq_iff_eq]
    exact eq_comm
  · intro i1 n1 p1 i2 n2 p2
    simp only [ExportTy.equalsFn]
    rw [ExportTy.equalsFn_symm p2 p1]
  · intro i1 n1 dt1 c1 i2 n2 dt2 c2
    simp only [ExportTy.equalsFn, Bool.and_eq_true, beq_iff_eq]
    exact ⟨fun h => ⟨h.1.symm, h.2.symm⟩, fun h => ⟨h.1.symm, h.2.symm⟩⟩
  · intro i1 n1 d1 i2 n2 d2
    simp only [ExportTy.equalsFn, beq_iff_eq]
    exact eq_comm
  · intro i1 n1 e1 s1 i2 n2 e2 s2
    simp only [ExportTy.equalsFn, Bool.and_eq_true, beq_iff_eq]
  · intro i1 n1 fs1 i2 n2 fs2
    simp only [ExportTy.equalsFn, Bool.and_eq_true, beq_iff_eq]
    constructor
    · rintro ⟨hl, hf⟩
      exact ⟨hl.symm, (equalsFields_iff_zip fs1 fs2 hl.symm).mp hf⟩
    · rintro ⟨hl, hf⟩
      exact ⟨hl.symm, (equalsFields_iff_zip fs1 fs2 hl).mpr hf⟩

/-- Two record export types with different ids, names and field
names/offsets but the same shape. -/
def recA : ExportTy :=
  .record 10 "A" [("x", .primitive 11 "int" .signed32, 0),
                  ("y", .vector 12 "float2" .float32 2, 4)]

/-- Same shape as `recA`, different identity and labels. -/
def recB : ExportTy :=
  .record 20 "B" [("u", .primitive 21 "i" .signed32, 8),
                  ("v", .vector 22 "f2" .float32 2, 16)]

/-- Witness for C7: the record-shape characterization applied to `recA` and
`recB` (ids, names and offsets differ, shapes agree — and they do compare
equal), plus the class-consistency implication discharged on them. -/
theorem claim_C7_witness :
    ((ExportTy.equalsFn recA recB = true ↔
       (([("x", ExportTy.primitive 11 "int" .signed32, 0),
          ("y", ExportTy.vector 12 "float2" .float32 2, 4)] :
           List (String × ExportTy × Nat)).length =
         ([("u", ExportTy.primitive 21 "i" .signed32, 8),
           ("v", ExportTy.vector 22 "f2" .float32 2, 16)] :
            List (String × ExportTy × Nat)).length ∧
        ∀ pr ∈ ([("x", ExportTy.primitive 11 "int" .signed32, 0),
                 ("y", ExportTy.vector 12 "float2" .float32 2, 4)] :
                  List (String × ExportTy × Nat)).zip
                 [("u", ExportTy.primitive 21 "i" .signed32, 8),
                  ("v", ExportTy.vector 22 "f2" .float32 2, 16)],
          ExportTy.equalsFn pr.1.2.1 pr.2.2.1 = true)) ∧
     ExportTy.equalsFn recA recB = true ∧
     recA.getClass = recB.getClass) :=
  ⟨claim_C7_equals_structural.2.2.2.2.2.2.2.2 10 "A"
     [("x", .primitive 11 "int" .signed32, 0),
      ("y", .vector 12 "float2" .float32 2, 4)] 20 "B"
     [("u", .primitive 21 "i" .signed32, 8),
      ("v", .vector 22 "f2" .float32 2, 16)],
   by simp [recA, recB, ExportTy.equalsFn, equalsFields],
   claim_C7_equals_structural.2.2.1 recA recB
     (by simp [recA, recB, ExportTy.equalsFn, equalsFields])⟩

/-! ## Claim C8: `keep` is idempotent and recursive -/

/-- The marked set after `RSExportType::keep`: unchanged when already
marked, otherwise extended by the object. -/
theorem RSExportTypeKeep_kept (j : Nat) (s : KeepState) :
    (RSExportTypeKeep j s).2.kept =
      if j ∈ s.kept then s.kept else j :: s.kept := by
  rw [RSExportTypeKeep, RSExportableKeep]
  split <;> simp_all

/-- An already marked object: `keep` returns `false` and changes nothing. -/
theorem RSExportTypeKeep_already (j : Nat) (s : KeepState)
    (h : j ∈ s.kept) : RSExportTypeKeep j s = (false, s) := by
  rw [RSExportTypeKeep, RSExportableKeep]
  simp [h]

/-- `keep` on an already marked object is a no-op for every kind (the base
call short-circuits before any recursion). -/
theorem ExportTy.keep_already :
    ∀ (t : ExportTy) (s : KeepState), t.rootId ∈ s.kept →
      ExportTy.keep t s = (false, s)
  | .primitive i _ _, s, h => RSExportTypeKeep_already i s h
  | .vector i _ _ _, s, h => RSExportTypeKeep_already i s h
  | .matrix i _ _, s, h => RSExportTypeKeep_already i s h
  | .pointer i _ p, s, h => by
      rw [ExportTy.keep, RSExportTypeKeep_already i s h]; simp
  | .constantArray i _ el _, s, h => by
      rw [ExportTy.keep, RSExportTypeKeep_already i s h]; simp
  | .record i _ fs, s, h => by
      rw [ExportTy.keep, RSExportTypeKeep_already i s h]; simp

mutual

/-- The marked set only grows under `keep`. -/
theorem ExportTy.keep_kept_mono :
    ∀ (t : ExportTy) (s : KeepState) (i : Nat),
      i ∈ s.kept → i ∈ (ExportTy.keep t s).2.kept
  | .primitive j _ _, s, i, h => by
      rw [ExportTy.keep, RSExportTypeKeep_kept]; split <;> simp_all
  | .vector j _ _ _, s, i, h => by
      rw [ExportTy.keep, RSExportTypeKeep_kept]; split <;> simp_all
  | .matrix j _ _, s, i, h => by
      rw [ExportTy.keep, RSExportTypeKeep_kept]; split <;> simp_all
  | .pointer j _ p, s, i, h => by
      rw [ExportTy.keep]
      rcases hr : (RSExportTypeKeep j s).1 <;> simp only [hr, if_true,
        if_false, Bool.false_eq_true]
      · have : i ∈ (RSExportTypeKeep j s).2.kept := by
          rw [RSExportTypeKeep_kept]; split <;> simp_all
        exact this
      · have hm : i ∈ (RSExportTypeKeep j s).2.kept := by
          rw [RSExportTypeKeep_kept]; split <;> simp_all
        exact ExportTy.keep_kept_mono p _ i hm
  | .constantArray j _ el _, s, i, h => by
      rw [ExportTy.keep]
      rcases hr : (RSExportTypeKeep j s).1 <;> simp only [hr, if_true,
        if_false, Bool.false_eq_true]
      · have : i ∈ (RSExportTypeKeep j s).2.kept := by
          rw [RSExportTypeKeep_kept]; split <;> simp_all
        exact this
      · have hm : i ∈ (RSExportTypeKeep j s).2.kept := by
          rw [RSExportTypeKeep_kept]; split <;> simp_all
        exact ExportTy.keep_kept_mono el _ i hm
  | .record j _ fs, s, i, h => by
      rw [ExportTy.keep]
      rcases hr : (RSExportTypeKeep j s).1 <;> simp only [hr, if_true,
        if_false, Bool.false_eq_true]
      · have : i ∈ (RSExportTypeKeep j s).2.kept := by
          rw [RSExportTypeKeep_kept]; split <;> simp_all
        exact this
      · have hm : i ∈ (RSExportTypeKeep j s).2.kept := by
          rw [RSExportTypeKeep_kept]; split <;> simp_all
        exact keepFields_kept_mono fs _ i hm

theorem keepFields_kept_mono :
    ∀ (fs : List (String × ExportTy × Nat)) (s : KeepState) (i : Nat),
      i ∈ s.kept → i ∈ (keepFields fs s).kept
  | [], s, i, h => h
  | (n, t, o) :: rest, s, i, h => by
      rw [keepFields]
      exact keepFields_kept_mono rest _ i (ExportTy.keep_kept_mono t s i h)

end

mutual

/-- `keep` marks the object itself. -/
theorem ExportTy.keep_marks :
    ∀ (t : ExportTy) (s : KeepState), t.rootId ∈ (ExportTy.keep t s).2.kept
  | .primitive j _ _, s => by
      rw [ExportTy.keep, ExportTy.rootId, RSExportTypeKeep_kept]
      split <;> simp_all
  | .vector j _ _ _, s => by
      rw [ExportTy.keep, ExportTy.rootId, RSExportTypeKeep_kept]
      split <;> simp_all
  | .matrix j _ _, s => by
      rw [ExportTy.keep, ExportTy.rootId, RSExportTypeKeep_kept]
      split <;> simp_all
  | .pointer j _ p, s => by
      rw [ExportTy.keep, ExportTy.rootId]
      rcases hr : (RSExportTypeKeep j s).1 <;> simp only [hr, if_true,
        if_false, Bool.false_eq_true]
      · rw [RSExportTypeKeep_kept]; split <;> simp_all
      · have hj : j ∈ (RSExportTypeKeep j s).2.kept := by
          rw [RSExportTypeKeep_kept]; split <;> simp_all
        exact ExportTy.keep_kept_mono p _ j hj
  | .constantArray j _ el _, s => by
      rw [ExportTy.keep, ExportTy.rootId]
      rcases hr : (RSExportTypeKeep j s).1 <;> simp only [hr, if_true,
        if_false, Bool.false_eq_true]
      · rw [RSExportTypeKeep_kept]; split <;> simp_all
      · have hj : j ∈ (RSExportTypeKeep j s).2.kept := by
          rw [RSExportTypeKeep_kept]; split <;> simp_all
        exact ExportTy.keep_kept_mono el _ j hj
  | .record j _ fs, s => by
      rw [ExportTy.keep, ExportTy.rootId]
      rcases hr : (RSExportTypeKeep j s).1 <;> simp only [hr, if_true,
        if_false, Bool.false_eq_true]
      · rw [RSExportTypeKeep_kept]; split <;> simp_all
      · have hj : j ∈ (RSExportTypeKeep j s).2.kept := by
          rw [RSExportTypeKeep_kept]; split <;> simp_all
        exact keepFields_kept_mono fs _ j hj

end

/-- Every field type is marked after the record field loop. -/
theorem keepFields_marks :
    ∀ (fs : List (String × ExportTy × Nat)) (s : KeepState),
      ∀ f ∈ fs, (f.2.1).rootId ∈ (keepFields fs s).kept
  | [], _, f, hf => by cases hf
  | (n, t, o) :: rest, s, f, hf => by
      rw [keepFields]
      rcases List.mem_cons.mp hf with h | h
      · subst h
        exact keepFields_kept_mono rest _ _ (ExportTy.keep_marks t s)
      · exact keepFields_marks rest _ f h

/-- The second of two consecutive `keep` calls is a no-op returning
`false`. -/
theorem ExportTy.keep_second (t : ExportTy) (s : KeepState) :
    ExportTy.keep t (ExportTy.keep t s).2 = (false, (ExportTy.keep t s).2) :=
  ExportTy.keep_already t _ (ExportTy.keep_marks t s)

/-- The state after `n + 1` calls equals the state after one call. -/
theorem keepIter_stable :
    ∀ (n : Nat) (t : ExportTy) (s : KeepState),
      keepIter (n + 1) t s = keepIter 1 t s := by
  intro n
  induction n with
  | zero => intro t s; rfl
  | succ m ih =>
      intro t s
      have h1 : keepIter (m + 2) t s = keepIter (m + 1) t (ExportTy.keep t s).2 := rfl
      rw [h1, ih t (ExportTy.keep t s).2]
      show (ExportTy.keep t (ExportTy.keep t s).2).2 = keepIter 1 t s
      rw [ExportTy.keep_second]
      rfl

/-- C8.  Calling `keep()` `n + 1 ≥ 1` times yields exactly the state (and
hence the marked reachable set) of a single call; and on a not-yet-marked
object a single call marks the object and, for the composite kinds, its
pointee, its element type, or every field type respectively
(`childRootIds`). -/
theorem claim_C8_keep_idempotent_recursive :
    (∀ (n : Nat) (t : ExportTy) (s : KeepState),
      keepIter (n + 1) t s = keepIter 1 t s) ∧
    (∀ (t : ExportTy) (s : KeepState), t.rootId ∉ s.kept →
      t.rootId ∈ (ExportTy.keep t s).2.kept ∧
      ∀ c ∈ t.childRootIds, c ∈ (ExportTy.keep t s).2.kept) := by
  refine ⟨keepIter_stable, ?_⟩
  intro t s hfresh
  refine ⟨ExportTy.keep_marks t s, ?_⟩
  intro c hc
  cases t with
  | primitive i n dt => simp [ExportTy.childRootIds] at hc
  | vector i n dt cn => simp [ExportTy.childRootIds] at hc
  | matrix i n d => simp [ExportTy.childRootIds] at hc
  | pointer i n p =>
      simp only [ExportTy.childRootIds, List.mem_singleton] at hc
      subst hc
      rw [ExportTy.keep]
      have hr : (RSExportTypeKeep i s).1 = true := by
        rw [RSExportTypeKeep, RSExportableKeep]
        simp [ExportTy.rootId] at hfresh
        simp [hfresh]
      simp only [hr, if_true]
      exact ExportTy.keep_marks p _
  | constantArray i n el sz =>
      simp only [ExportTy.childRootIds, List.mem_singleton] at hc
      subst hc
      rw [ExportTy.keep]
      have hr : (RSExportTypeKeep i s).1 = true := by
        rw [RSExportTypeKeep, RSExportableKeep]
        simp [ExportTy.rootId] at hfresh
        simp [hfresh]
      simp only [hr, if_true]
      exact ExportTy.keep_marks el _
  | record i n fs =>
      simp only [ExportTy.childRootIds, List.mem_map] at hc
      obtain ⟨f, hf, hfc⟩ := hc
      subst hfc
      rw [ExportTy.keep]
      have hr : (RSExportTypeKeep i s).1 = true := by
        rw [RSExportTypeKeep, RSExportableKeep]
        simp [ExportTy.rootId] at hfresh
        simp [hfresh]
      simp only [hr, if_true]
      exact keepFields_marks fs _ f hf

/-- A two-field record sharing its first field's object with a nested
pointer's pointee. -/
def keepDemo : ExportTy :=
  .record 1 "R" [("a", .primitive 2 "int" .signed32, 0),
                 ("p", .constantArray 3 "<ConstantArray>"
                   (.primitive 2 "int" .signed32) 4, 4)]

/-- Witness for C8: three calls equal one call on `keepDemo` from the empty
state, and the single call marks the record and both field types. -/
theorem claim_C8_witness :
    keepIter 3 keepDemo ⟨[], []⟩ = keepIter 1 keepDemo ⟨[], []⟩ ∧
    (keepDemo.rootId ∉ (⟨[], []⟩ : KeepState).kept ∧
     keepDemo.rootId ∈ (ExportTy.keep keepDemo ⟨[], []⟩).2.kept ∧
     ∀ c ∈ keepDemo.childRootIds,
       c ∈ (ExportTy.keep keepDemo ⟨[], []⟩).2.kept) :=
  ⟨claim_C8_keep_idempotent_recursive.1 2 keepDemo ⟨[], []⟩,
   by decide,
   (claim_C8_keep_idempotent_recursive.2 keepDemo ⟨[], []⟩ (by decide)).1,
   (claim_C8_keep_idempotent_recursive.2 keepDemo ⟨[], []⟩ (by decide)).2⟩

/-! ## Claim C2: a failed record construction and the registry -/

/-- A user-redefined, malformed `rs_matrix2x2`:
`struct rs_matrix2x2 { float m[4]; float x; };` (one field too many). -/
def badMatrixTy : CType :=
  .record ⟨"rs_matrix2x2", none, [], true, false, false, false, false, 160⟩
    [("m", .constantArray (.builtin .float) 4, false, 0),
     ("x", .builtin .float, false, 128)]

/-- `struct Top { int a; struct rs_matrix2x2 mat; };` — exportable (the
RS-specific name short-circuits the checker), but construction fails on the
`mat` field because the matrix struct is malformed. -/
def topRecTy : CType :=
  .record ⟨"Top", none, [], true, false, false, false, false, 192⟩
    [("a", .builtin .int, false, 0), ("mat", badMatrixTy, false, 32)]

/-- C2 (evaluation at the failing input).  `Top` passes the exportability
check and normalization; `RSExportType::Create` then fails — yet afterwards
the registry still maps `"Top"` to object 0, which is no longer live (the
record was interned by its constructor before the field loop, and `delete`
does not remove the entry: a dangling registry entry).  The sibling field
type `int`, interned earlier in the same pass, remains live, and the two
diagnostics (malformed matrix, failing field) were emitted.  This
contradicts the claim that no registry entry exists for a type whose
construction failed. -/
theorem claim_C2_failed_record_dangling_entry :
    (TypeExportable topRecTy (some "g")).1 = some topRecTy ∧
    RSExportType.NormalizeTypeName topRecTy = some "Top" ∧
    (RSExportType.Create RSContext.empty topRecTy).1 = none ∧
    (RSExportType.Create RSContext.empty topRecTy).2.findExportType "Top" =
      some 0 ∧
    (RSExportType.Create RSContext.empty topRecTy).2.heapFind 0 = none ∧
    (RSExportType.Create RSContext.empty topRecTy).2.findExportType "int" =
      some 1 ∧
    (RSExportType.Create RSContext.empty topRecTy).2.heapFind 1 =
      some (.primitive "int" .signed32) ∧
    (RSExportType.Create RSContext.empty topRecTy).2.diags =
      [⟨"invalid matrix struct: must have exactly 1 field: '%0'",
        ["rs_matrix2x2"]⟩,
       ⟨"field type cannot be exported: '%0.%1'", ["Top", "mat"]⟩] := by
  decide

/-! ## Claim C1: interning — definitions for the analysis -/

/-- Whether a name begins with `'*'` (the shape of every pointer type
name). -/
def isStarName (s : String) : Bool := s.data.head? = some '*'

mutual

/-- No pointer type is reachable along the creation recursion: creation
stops at RS-specific-named records (they become primitives, their fields are
not visited), otherwise descends into record fields and array elements. -/
def noPointerReach : CType → Bool
  | .builtin _ => true
  | .record m fs =>
      if RSExportPrimitiveType.GetRSSpecificType (.record m fs) ≠ .unknown
      then true
      else fieldsNoPointer fs
  | .pointer _ => false
  | .extVector _ _ => true
  | .constantArray e _ => noPointerReach e
  | .other => true

def fieldsNoPointer : List (String × CType × Bool × Nat) → Bool
  | [] => true
  | (_, t, _, _) :: rest => noPointerReach t && fieldsNoPointer rest

end

mutual

/-- No record reachable along the creation recursion (including through a
top-level pointer) resolves to a name beginning with `'*'` — C guarantees
this, since struct tags and typedef names are identifiers. -/
def recNoStar : CType → Bool
  | .builtin _ => true
  | .record m fs =>
      !isStarName (recordResolvedName m) &&
      (if RSExportPrimitiveType.GetRSSpecificType (.record m fs) ≠ .unknown
       then true
       else fieldsRecNoStar fs)
  | .pointer p => recNoStar p
  | .extVector _ _ => true
  | .constantArray e _ => recNoStar e
  | .other => true

def fieldsRecNoStar : List (String × CType × Bool × Nat) → Bool
  | [] => true
  | (_, t, _, _) :: rest => recNoStar t && fieldsRecNoStar rest

end

theorem fieldsNoPointer_iff (fs : List (String × CType × Bool × Nat)) :
    fieldsNoPointer fs = true ↔ ∀ f ∈ fs, noPointerReach f.2.1 = true := by
  induction fs with
  | nil => simp [fieldsNoPointer]
  | cons f rest ih =>
      obtain ⟨n, t, b, o⟩ := f
      simp [fieldsNoPointer, ih]

theorem fieldsRecNoStar_iff (fs : List (String × CType × Bool × Nat)) :
    fieldsRecNoStar fs = true ↔ ∀ f ∈ fs, recNoStar f.2.1 = true := by
  induction fs with
  | nil => simp [fieldsRecNoStar]
  | cons f rest ih =>
      obtain ⟨n, t, b, o⟩ := f
      simp [fieldsRecNoStar, ih]

/-- A member of a field list is smaller than the list. -/
theorem sizeOf_field_lt (fs : List (String × CType × Bool × Nat))
    (f : String × CType × Bool × Nat) (hf : f ∈ fs) :
    sizeOf f.2.1 < sizeOf fs := by
  induction fs with
  | nil => cases hf
  | cons g rest ih =>
      rcases List.mem_cons.mp hf with h | h
      · subst h
        obtain ⟨n, t, b, o⟩ := f
        simp only
        simp_arith
      · have := ih h
        simp_arith
        omega

/-- A successful `ConstantArrayTypeExportableHelper` call is a successful
element check: it returns `cat`, the element's visited set and the
element's diagnostics. -/
theorem CATH_success (e : CType) (s : Nat) (cat : CType) (sps : List CType)
    (vd tlr : Option String) (u : CType) (sps2 : List CType) (ds : List Diag)
    (h : ConstantArrayTypeExportableHelper e s cat sps vd tlr =
      (some u, sps2, ds)) :
    u = cat ∧ e.isArrayType = false ∧
    ∃ ue, TypeExportableHelper e sps vd tlr = (some ue, sps2, ds) := by
  rw [ConstantArrayTypeExportableHelper] at h
  rcases hre : TypeExportableHelper e sps vd tlr with ⟨ro, rsps, rds⟩
  rw [hre] at h
  repeat' split at h
  all_goals cases ro <;> simp_all

/-! Per-constructor unfolding equations for `TypeExportableHelper`; each
holds by definitional unfolding. -/

theorem TypeExportableHelper_builtin (k : BuiltinKind) (sps : List CType)
    (vd tlr : Option String) :
    TypeExportableHelper (.builtin k) sps vd tlr =
      if (CType.builtin k) ∈ sps then (some (.builtin k), sps, [])
      else if (builtinCName k).isSome then (some (.builtin k), sps, [])
      else (none, sps, []) := rfl

theorem TypeExportableHelper_record (m : RecMeta)
    (fs : List (String × CType × Bool × Nat)) (sps : List CType)
    (vd tlr : Option String) :
    TypeExportableHelper (.record m fs) sps vd tlr =
      if (CType.record m fs) ∈ sps then (some (.record m fs), sps, [])
      else if RSExportPrimitiveType.GetRSSpecificType (.record m fs) ≠
          .unknown then
        (some (.record m fs), sps, [])
      else if m.isUnion then
        (none, sps, ReportTypeError none (some m.rawName)
          "unions cannot be exported: '%0'")
      else if ¬ m.hasDef then
        (none, sps, ReportTypeError none (some m.rawName)
          "struct is not defined in this module")
      else if m.rawName = "" then
        (none, sps, ReportTypeError none (some m.rawName)
          "anonymous structures cannot be exported")
      else if m.flexArray || m.objMember then (none, sps, [])
      else
        (if (recordFieldsExportable m.rawName fs ((CType.record m fs) :: sps)
              vd (tlrForRecord tlr m.rawName)).1 then
           some (.record m fs)
         else none,
         (recordFieldsExportable m.rawName fs ((CType.record m fs) :: sps)
           vd (tlrForRecord tlr m.rawName)).2.1,
         (recordFieldsExportable m.rawName fs ((CType.record m fs) :: sps)
           vd (tlrForRecord tlr m.rawName)).2.2) := rfl

theorem TypeExportableHelper_pointer (p : CType) (sps : List CType)
    (vd tlr : Option String) :
    TypeExportableHelper (.pointer p) sps vd tlr =
      if (CType.pointer p) ∈ sps then (some (.pointer p), sps, [])
      else
        match tlr with
        | some _ =>
            (none, sps, ReportTypeError none tlr
              "structures containing pointers cannot be exported: '%0'")
        | none =>
            if p.isPointerType then (some (.pointer p), sps, [])
            else if p.isArrayType then (none, sps, [])
            else
              (if (TypeExportableHelper p sps vd tlr).1.isSome then
                 some (.pointer p)
               else none,
               (TypeExportableHelper p sps vd tlr).2.1,
               (TypeExportableHelper p sps vd tlr).2.2) := rfl

theorem TypeExportableHelper_extVector (e : CType) (n : Nat)
    (sps : List CType) (vd tlr : Option String) :
    TypeExportableHelper (.extVector e n) sps vd tlr =
      if (CType.extVector e n) ∈ sps then (some (.extVector e n), sps, [])
      else if n < 2 ∨ n > 4 then (none, sps, [])
      else if ¬ e.isBuiltinType then (none, sps, [])
      else
        (if (TypeExportableHelper e sps vd tlr).1.isSome then
           some (.extVector e n)
         else none,
         (TypeExportableHelper e sps vd tlr).2.1,
         (TypeExportableHelper e sps vd tlr).2.2) := rfl

theorem TypeExportableHelper_other (sps : List CType)
    (vd tlr : Option String) :
    TypeExportableHelper .other sps vd tlr =
      if (CType.other) ∈ sps then (some .other, sps, [])
      else (none, sps, []) := rfl

theorem recordFieldsExportable_cons (rdName fname : String) (fty : CType)
    (fbit : Bool) (foff : Nat) (rest : List (String × CType × Bool × Nat))
    (sps : List CType) (vd tlr : Option String) :
    recordFieldsExportable rdName ((fname, fty, fbit, foff) :: rest) sps vd
        tlr =
      (if (TypeExportableHelper fty sps vd tlr).1.isSome then
        if fbit then
          (false, (TypeExportableHelper fty sps vd tlr).2.1,
           (TypeExportableHelper fty sps vd tlr).2.2 ++
             [⟨"bit fields are not able to be exported: '%0.%1'",
               [rdName, fname]⟩])
        else
          ((recordFieldsExportable rdName rest
             (TypeExportableHelper fty sps vd tlr).2.1 vd tlr).1,
           (recordFieldsExportable rdName rest
             (TypeExportableHelper fty sps vd tlr).2.1 vd tlr).2.1,
           (TypeExportableHelper fty sps vd tlr).2.2 ++
             (recordFieldsExportable rdName rest
               (TypeExportableHelper fty sps vd tlr).2.1 vd tlr).2.2)
      else (false, (TypeExportableHelper fty sps vd tlr).2.1,
        (TypeExportableHelper fty sps vd tlr).2.2)) := rfl

mutual

/-- A type that passes the exportability check with a `TopLevelRecord` set
has no creation-reachable pointer; without one, the same holds unless the
type itself is a pointer or an array.  The visited-set invariant threads the
fact that every previously inserted record is either fully validated or a
strictly larger (still open) ancestor. -/
theorem exportable_noPtr :
    ∀ (t : CType) (sps : List CType) (vd tlr : Option String),
      (∀ s ∈ sps, noPointerReach s = true ∨ sizeOf t < sizeOf s) →
      ∀ u sps2 ds, TypeExportableHelper t sps vd tlr = (some u, sps2, ds) →
        (tlr.isSome → noPointerReach t = true) ∧
        (noPointerReach t = true ∨ t.isPointerType = true ∨
          t.isArrayType = true) ∧
        (∀ s ∈ sps2, noPointerReach s = true ∨ s ∈ sps) := by
  intro t sps vd tlr hInv u sps2 ds h
  by_cases hmem : t ∈ sps
  · rw [TypeExportableHelper.eq_def, if_pos hmem] at h
    simp only [Prod.mk.injEq, Option.some.injEq] at h
    obtain ⟨hu, hs, hd⟩ := h
    have hnp : noPointerReach t = true := by
      rcases hInv t hmem with hh | hh
      · exact hh
      · omega
    subst hs
    exact ⟨fun _ => hnp, Or.inl hnp, fun s hsm => Or.inr hsm⟩
  · cases t with
    | builtin k =>
        rw [TypeExportableHelper_builtin, if_neg hmem] at h
        by_cases hk : (builtinCName k).isSome = true
        · rw [if_pos hk] at h
          simp only [Prod.mk.injEq, Option.some.injEq] at h
          obtain ⟨hu, hs, hd⟩ := h
          subst hs
          exact ⟨fun _ => rfl, Or.inl rfl, fun s hsm => Or.inr hsm⟩
        · rw [if_neg hk] at h; simp at h
    | record m fs =>
        rw [TypeExportableHelper_record, if_neg hmem] at h
        by_cases hrs :
            RSExportPrimitiveType.GetRSSpecificType (.record m fs) ≠ .unknown
        · rw [if_pos hrs] at h
          simp only [Prod.mk.injEq, Option.some.injEq] at h
          obtain ⟨hu, hs, hd⟩ := h
          subst hs
          have hnp : noPointerReach (CType.record m fs) = true := by
            rw [noPointerReach, if_pos hrs]
          exact ⟨fun _ => hnp, Or.inl hnp, fun s hsm => Or.inr hsm⟩
        · rw [if_neg hrs] at h
          by_cases hun : m.isUnion = true
          · rw [if_pos hun] at h; simp [ReportTypeError] at h
          · rw [if_neg hun] at h
            by_cases hdf : ¬ m.hasDef = true
            · rw [if_pos hdf] at h; simp [ReportTypeError] at h
            · rw [if_neg hdf] at h
              by_cases hnm : m.rawName = ""
              · rw [if_pos hnm] at h; simp [ReportTypeError] at h
              · rw [if_neg hnm] at h
                by_cases hfx : (m.flexArray || m.objMember) = true
                · rw [if_pos hfx] at h; simp at h
                · rw [if_neg hfx] at h
                  rcases hre : recordFieldsExportable m.rawName fs
                      ((CType.record m fs) :: sps) vd
                      (tlrForRecord tlr m.rawName) with ⟨ok, spsf, dsf⟩
                  rw [hre] at h
                  simp only at h
                  cases ok with
                  | false => simp at h
                  | true =>
                      simp only [if_true, Prod.mk.injEq,
                        Option.some.injEq] at h
                      obtain ⟨hu, hs, hd⟩ := h
                      subst hs
                      have hInvf : ∀ s ∈ (CType.record m fs) :: sps,
                          noPointerReach s = true ∨
                          ∀ f ∈ fs, sizeOf f.2.1 < sizeOf s := by
                        intro s hsm
                        rcases List.mem_cons.mp hsm with hh | hh
                        · subst hh
                          refine Or.inr fun f hf => ?_
                          have h1 := sizeOf_field_lt fs f hf
                          have h2 : sizeOf fs <
                              sizeOf (CType.record m fs) := by
                            simp_arith
                          omega
                        · rcases hInv s hh with h1 | h1
                          · exact Or.inl h1
                          · refine Or.inr fun f hf => ?_
                            have h2 := sizeOf_field_lt fs f hf
                            have h3 : sizeOf fs <
                                sizeOf (CType.record m fs) := by
                              simp_arith
                            omega
                      have hfl := exportable_noPtr_fields m.rawName fs
                        ((CType.record m fs) :: sps) vd
                        (tlrForRecord tlr m.rawName) hInvf spsf dsf hre
                      have htlr1 : (tlrForRecord tlr m.rawName).isSome =
                          true := by
                        cases tlr <;> rfl
                      have hall := hfl.1 htlr1
                      have hnp : noPointerReach (CType.record m fs) = true := by
                        rw [noPointerReach, if_neg hrs]
                        exact (fieldsNoPointer_iff fs).mpr hall
                      refine ⟨fun _ => hnp, Or.inl hnp, ?_⟩
                      intro s hsm
                      rcases hfl.2 s hsm with h1 | h1
                      · exact Or.inl h1
                      · rcases List.mem_cons.mp h1 with hh | hh
                        · subst hh; exact Or.inl hnp
                        · exact Or.inr hh
    | pointer p =>
        rw [TypeExportableHelper_pointer, if_neg hmem] at h
        cases tlr with
        | some n => simp [ReportTypeError] at h
        | none =>
            by_cases hpp : p.isPointerType = true
            · rw [if_pos hpp] at h
              simp only [Prod.mk.injEq, Option.some.injEq] at h
              obtain ⟨hu, hs, hd⟩ := h
              subst hs
              exact ⟨fun hh => by simp at hh,
                Or.inr (Or.inl rfl), fun s hsm => Or.inr hsm⟩
            · rw [if_neg hpp] at h
              by_cases hpa : p.isArrayType = true
              · rw [if_pos hpa] at h; simp at h
              · rw [if_neg hpa] at h
                rcases hre : TypeExportableHelper p sps vd none
                  with ⟨ro, rsps, rds⟩
                rw [hre] at h
                simp only at h
                cases ro with
                | none => simp at h
                | some up =>
                    simp only [Option.isSome_some, if_true, Prod.mk.injEq,
                      Option.some.injEq] at h
                    obtain ⟨hu, hs, hd⟩ := h
                    subst hs
                    have hInv2 : ∀ s ∈ sps, noPointerReach s = true ∨
                        sizeOf p < sizeOf s := by
                      intro s hsm
                      rcases hInv s hsm with h1 | h1
                      · exact Or.inl h1
                      · refine Or.inr ?_
                        have : sizeOf p < sizeOf (CType.pointer p) := by
                          simp_arith
                        omega
                    have hih := exportable_noPtr p sps vd none hInv2 up
                      rsps rds hre
                    exact ⟨fun hh => by simp at hh, Or.inr (Or.inl rfl),
                      hih.2.2⟩
    | extVector e n =>
        rw [TypeExportableHelper_extVector, if_neg hmem] at h
        by_cases hn : (n < 2 ∨ n > 4)
        · rw [if_pos hn] at h; simp at h
        · rw [if_neg hn] at h
          by_cases hb : ¬ e.isBuiltinType = true
          · rw [if_pos hb] at h; simp at h
          · rw [if_neg hb] at h
            rcases hre : TypeExportableHelper e sps vd tlr
              with ⟨ro, rsps, rds⟩
            rw [hre] at h
            simp only at h
            cases ro with
            | none => simp at h
            | some ue =>
                simp only [Option.isSome_some, if_true, Prod.mk.injEq,
                  Option.some.injEq] at h
                obtain ⟨hu, hs, hd⟩ := h
                subst hs
                have hpost : ∀ s1 ∈ rsps, noPointerReach s1 = true ∨
                    s1 ∈ sps := by
                  have hInv2 : ∀ s1 ∈ sps, noPointerReach s1 = true ∨
                      sizeOf e < sizeOf s1 := by
                    intro s1 hsm
                    rcases hInv s1 hsm with h1 | h1
                    · exact Or.inl h1
                    · refine Or.inr ?_
                      have : sizeOf e < sizeOf (CType.extVector e n) := by
                        simp_arith
                      omega
                  exact (exportable_noPtr e sps vd tlr hInv2 ue rsps rds
                    hre).2.2
                exact ⟨fun _ => rfl, Or.inl rfl, hpost⟩
    | constantArray e s =>
        rw [TypeExportableHelper_constantArray e s sps vd tlr hmem] at h
        obtain ⟨hu, hea, ue, hre⟩ := CATH_success e s
          (.constantArray e s) sps vd tlr u sps2 ds h
        have hInv2 : ∀ s1 ∈ sps, noPointerReach s1 = true ∨
            sizeOf e < sizeOf s1 := by
          intro s1 hsm
          rcases hInv s1 hsm with h1 | h1
          · exact Or.inl h1
          · refine Or.inr ?_
            have : sizeOf e < sizeOf (CType.constantArray e s) := by
              simp_arith
            omega
        have hih := exportable_noPtr e sps vd tlr hInv2 ue sps2 ds hre
        refine ⟨?_, Or.inr (Or.inr rfl), hih.2.2⟩
        intro htl
        have : noPointerReach e = true := hih.1 htl
        simpa [noPointerReach] using this
    | other =>
        rw [TypeExportableHelper_other, if_neg hmem] at h
        simp at h
termination_by t _ _ _ _ _ _ _ _ => sizeOf t

theorem exportable_noPtr_fields :
    ∀ (rdName : String) (fs : List (String × CType × Bool × Nat))
      (sps : List CType) (vd tlr : Option String),
      (∀ s ∈ sps, noPointerReach s = true ∨
        ∀ f ∈ fs, sizeOf f.2.1 < sizeOf s) →
      ∀ sps2 ds,
        recordFieldsExportable rdName fs sps vd tlr = (true, sps2, ds) →
        ((tlr.isSome → ∀ f ∈ fs, noPointerReach f.2.1 = true) ∧
         (∀ s ∈ sps2, noPointerReach s = true ∨ s ∈ sps)) := by
  intro rdName fs sps vd tlr hInv sps2 ds h
  match fs, h with
  | [], h =>
      rw [recordFieldsExportable] at h
      simp only [Prod.mk.injEq] at h
      obtain ⟨_, hs, _⟩ := h
      subst hs
      exact ⟨fun _ f hf => absurd hf (List.not_mem_nil f),
        fun s hsm => Or.inr hsm⟩
  | (fname, fty, fbit, foff) :: rest, h =>
      rw [recordFieldsExportable_cons] at h
      rcases hre : TypeExportableHelper fty sps vd tlr
        with ⟨ro, rsps, rds⟩
      rw [hre] at h
      simp only at h
      cases ro with
      | none => simp at h
      | some uf =>
          simp only [Option.isSome_some, if_true] at h
          cases hfb : fbit with
          | true => rw [hfb] at h; simp at h
          | false =>
              rw [hfb] at h
              simp only [Bool.false_eq_true, if_false] at h
              rcases hre2 : recordFieldsExportable rdName rest rsps vd tlr
                with ⟨ok2, sps3, ds3⟩
              rw [hre2] at h
              simp only [Prod.mk.injEq] at h
              obtain ⟨hok, hs, hd⟩ := h
              subst hok hs
              have hInv1 : ∀ s ∈ sps, noPointerReach s = true ∨
                  sizeOf fty < sizeOf s := by
                intro s hsm
                rcases hInv s hsm with h1 | h1
                · exact Or.inl h1
                · exact Or.inr (h1 (fname, fty, fbit, foff)
                    (List.mem_cons_self _ _))
              have hih := exportable_noPtr fty sps vd tlr hInv1 uf rsps
                rds hre
              have hInv2 : ∀ s ∈ rsps, noPointerReach s = true ∨
                  ∀ f ∈ rest, sizeOf f.2.1 < sizeOf s := by
                intro s hsm
                rcases hih.2.2 s hsm with h1 | h1
                · exact Or.inl h1
                · rcases hInv s h1 with h2 | h2
                  · exact Or.inl h2
                  · exact Or.inr fun f hf =>
                      h2 f (List.mem_cons_of_mem _ hf)
              have hih2 := exportable_noPtr_fields rdName rest rsps vd tlr
                hInv2 sps3 ds3 hre2
              constructor
              · intro htl f hf
                rcases List.mem_cons.mp hf with hh | hh
                · subst hh
                  exact hih.1 htl
                · exact hih2.1 htl f hh
              · intro s hsm
                rcases hih2.2 s hsm with h1 | h1
                · exact Or.inl h1
                · rcases hih.2.2 s h1 with h2 | h2
                  · exact Or.inl h2
                  · exact Or.inr h2
termination_by _ fs _ _ _ _ _ _ _ => sizeOf fs

end

/-! Registry bookkeeping lemmas. -/

theorem findExportType_report (ctx : RSContext) (m : String)
    (a : List String) (k : String) :
    (ctx.report m a).findExportType k = ctx.findExportType k := rfl

theorem findExportType_heapErase (ctx : RSContext) (id : Nat) (k : String) :
    (ctx.heapErase id).findExportType k = ctx.findExportType k := rfl

theorem findExportType_heapSet (ctx : RSContext) (id : Nat)
    (d : ExportTypeData) (k : String) :
    (ctx.heapSet id d).findExportType k = ctx.findExportType k := rfl

theorem findExportType_insert_present (ctx : RSContext) (n : String)
    (id : Nat) (k : String) (v : Nat) (h : ctx.findExportType k = some v) :
    (ctx.insertExportType n id).findExportType k = some v := by
  rw [RSContext.insertExportType]
  split
  · exact h
  · next hn =>
      have hne : n ≠ k := by
        intro he
        subst he
        rw [h] at hn
        simp at hn
      show lookupString k ((n, id) :: ctx.registry) = some v
      rw [lookupString, if_neg hne]
      exact h

theorem findExportType_insert_absent (ctx : RSContext) (n : String)
    (id : Nat) (k : String) (hk : ctx.findExportType k = none)
    (hne : n ≠ k) :
    (ctx.insertExportType n id).findExportType k = none := by
  rw [RSContext.insertExportType]
  split
  · exact hk
  · show lookupString k ((n, id) :: ctx.registry) = none
    rw [lookupString, if_neg hne]
    exact hk

theorem findExportType_insert_self (ctx : RSContext) (n : String) (id : Nat)
    (h : ctx.findExportType n = none) :
    (ctx.insertExportType n id).findExportType n = some id := by
  rw [RSContext.insertExportType]
  rw [h]
  simp only [Option.isSome_none, Bool.false_eq_true, if_false]
  show lookupString n ((n, id) :: ctx.registry) = some id
  rw [lookupString, if_pos rfl]

theorem RSExportTypeNew_fst (ctx : RSContext) (n : String)
    (d : ExportTypeData) : (RSExportTypeNew ctx n d).1 = ctx.nextId := rfl

theorem RSExportTypeNew_present (ctx : RSContext) (n : String)
    (d : ExportTypeData) (k : String) (v : Nat)
    (h : ctx.findExportType k = some v) :
    (RSExportTypeNew ctx n d).2.findExportType k = some v := by
  rw [RSExportTypeNew]
  simp only
  split
  · exact h
  · exact findExportType_insert_present _ n ctx.nextId k v h

theorem RSExportTypeNew_absent (ctx : RSContext) (n : String)
    (d : ExportTypeData) (k : String) (hk : ctx.findExportType k = none)
    (hne : n ≠ k) :
    (RSExportTypeNew ctx n d).2.findExportType k = none := by
  rw [RSExportTypeNew]
  simp only
  split
  · exact hk
  · exact findExportType_insert_absent _ n ctx.nextId k hk hne

theorem RSExportTypeNew_absent_dummy (ctx : RSContext) (n : String)
    (d : ExportTypeData) (k : String) (hk : ctx.findExportType k = none)
    (hd : isDummyTypeName n = true) :
    (RSExportTypeNew ctx n d).2.findExportType k = none := by
  rw [RSExportTypeNew]
  simp only [hd, if_true]
  exact hk

theorem RSExportTypeNew_self (ctx : RSContext) (n : String)
    (d : ExportTypeData) (hn : ctx.findExportType n = none)
    (hd : isDummyTypeName n = false) :
    (RSExportTypeNew ctx n d).2.findExportType n = some ctx.nextId := by
  rw [RSExportTypeNew]
  simp only [hd, Bool.false_eq_true, if_false]
  exact findExportType_insert_self _ n ctx.nextId hn

/-- `GetDataType` only touches the diagnostics. -/
theorem GetDataType_ctx (ctx : RSContext) (t : CType) :
    (RSExportPrimitiveType.GetDataType ctx t).2.registry = ctx.registry ∧
    (RSExportPrimitiveType.GetDataType ctx t).2.nextId = ctx.nextId := by
  rw [RSExportPrimitiveType.GetDataType.eq_def]
  split
  · split <;> exact ⟨rfl, rfl⟩
  · exact ⟨rfl, rfl⟩
  · exact ⟨rfl, rfl⟩

theorem findExportType_GetDataType (ctx : RSContext) (t : CType)
    (k : String) :
    (RSExportPrimitiveType.GetDataType ctx t).2.findExportType k =
      ctx.findExportType k := by
  show lookupString k _ = lookupString k _
  rw [(GetDataType_ctx ctx t).1]

/-- `RSExportPrimitiveType::Create` preserves present registry keys. -/
theorem PrimCreate_present (ctx : RSContext) (t : CType) (n k : String)
    (v : Nat) (h : ctx.findExportType k = some v) :
    (RSExportPrimitiveType.Create ctx t n).2.findExportType k = some v := by
  rw [RSExportPrimitiveType.Create]
  simp only
  split
  · rw [findExportType_GetDataType]; exact h
  · exact RSExportTypeNew_present _ n _ k v
      (by rw [findExportType_GetDataType]; exact h)

/-- `RSExportPrimitiveType::Create` inserts only `n`. -/
theorem PrimCreate_absent (ctx : RSContext) (t : CType) (n k : String)
    (hk : ctx.findExportType k = none) (hne : n ≠ k) :
    (RSExportPrimitiveType.Create ctx t n).2.findExportType k = none := by
  rw [RSExportPrimitiveType.Create]
  simp only
  split
  · rw [findExportType_GetDataType]; exact hk
  · exact RSExportTypeNew_absent _ n _ k
      (by rw [findExportType_GetDataType]; exact hk) hne

/-- `RSExportVectorType::Create` preserves present registry keys. -/
theorem VecCreate_present (ctx : RSContext) (e : CType) (cnt : Nat)
    (n k : String) (v : Nat) (h : ctx.findExportType k = some v) :
    (RSExportVectorType.Create ctx e cnt n).2.findExportType k = some v := by
  rw [RSExportVectorType.Create]
  simp only
  split
  · exact RSExportTypeNew_present _ n _ k v
      (by rw [findExportType_GetDataType]; exact h)
  · rw [findExportType_GetDataType]; exact h

/-- `RSExportVectorType::Create` inserts only `n`. -/
theorem VecCreate_absent (ctx : RSContext) (e : CType) (cnt : Nat)
    (n k : String) (hk : ctx.findExportType k = none) (hne : n ≠ k) :
    (RSExportVectorType.Create ctx e cnt n).2.findExportType k = none := by
  rw [RSExportVectorType.Create]
  simp only
  split
  · exact RSExportTypeNew_absent _ n _ k
      (by rw [findExportType_GetDataType]; exact hk) hne
  · rw [findExportType_GetDataType]; exact hk

/-- `RSExportMatrixType::Create` preserves present registry keys. -/
theorem MatCreate_present (ctx : RSContext) (m : RecMeta)
    (fs : List (String × CType × Bool × Nat)) (n : String) (dim : Nat)
    (k : String) (v : Nat) (h : ctx.findExportType k = some v) :
    (RSExportMatrixType.Create ctx m fs n dim).2.findExportType k =
      some v := by
  rw [RSExportMatrixType.Create.eq_def]
  repeat' split
  all_goals
    first
      | (rw [findExportType_report]; exact h)
      | exact RSExportTypeNew_present _ n _ k v h
      | exact h

/-- `RSExportMatrixType::Create` inserts only `n`. -/
theorem MatCreate_absent (ctx : RSContext) (m : RecMeta)
    (fs : List (String × CType × Bool × Nat)) (n : String) (dim : Nat)
    (k : String) (hk : ctx.findExportType k = none) (hne : n ≠ k) :
    (RSExportMatrixType.Create ctx m fs n dim).2.findExportType k =
      none := by
  rw [RSExportMatrixType.Create.eq_def]
  repeat' split
  all_goals
    first
      | (rw [findExportType_report]; exact hk)
      | exact RSExportTypeNew_absent _ n _ k hk hne
      | exact hk

/-! Unfolding equations for `RSExportType.CreateByName`, split on whether
the registry already holds the canonical name. -/

/-- A registry hit short-circuits the whole factory. -/
theorem CreateByName_hit (ctx : RSContext) (t : CType) (tyName : String)
    (id : Nat) (h : ctx.findExportType tyName = some id) :
    RSExportType.CreateByName ctx t tyName = (some id, ctx) := by
  cases t <;> rw [RSExportType.CreateByName] <;> rw [h]

theorem CreateByName_builtin (ctx : RSContext) (k : BuiltinKind)
    (tyName : String) (h : ctx.findExportType tyName = none) :
    RSExportType.CreateByName ctx (.builtin k) tyName =
      RSExportPrimitiveType.Create ctx (.builtin k) tyName := by
  rw [RSExportType.CreateByName, h]

theorem CreateByName_record (ctx : RSContext) (m : RecMeta)
    (fs : List (String × CType × Bool × Nat)) (tyName : String)
    (h : ctx.findExportType tyName = none) :
    RSExportType.CreateByName ctx (.record m fs) tyName =
      match RSExportPrimitiveType.GetRSSpecificTypeByName tyName with
      | .unknown =>
          if m.hasDef then
            recordFieldsCreate
              (RSExportTypeNew ctx tyName
                (.record tyName m.packed false (m.sizeBits >>> 3) [])).2
              m.rawName tyName m.packed false (m.sizeBits >>> 3)
              (RSExportTypeNew ctx tyName
                (.record tyName m.packed false (m.sizeBits >>> 3) [])).1
              fs []
          else (none, ctx)
      | .rsMatrix2x2 => RSExportMatrixType.Create ctx m fs tyName 2
      | .rsMatrix3x3 => RSExportMatrixType.Create ctx m fs tyName 3
      | .rsMatrix4x4 => RSExportMatrixType.Create ctx m fs tyName 4
      | _ => RSExportPrimitiveType.Create ctx (.record m fs) tyName := by
  rw [RSExportType.CreateByName, h]

theorem CreateByName_pointer (ctx : RSContext) (p : CType)
    (tyName : String) (h : ctx.findExportType tyName = none) :
    RSExportType.CreateByName ctx (.pointer p) tyName =
      let r :=
        if p.isPointerType then
          RSExportPrimitiveType.CreateFromType ctx (.builtin .int)
        else
          match RSExportType.NormalizeTypeName p with
          | some pn => RSExportType.CreateByName ctx p pn
          | none => (none, ctx)
      match r.1 with
      | none => (none, r.2)
      | some pointeeId =>
          (some (RSExportTypeNew r.2 tyName
             (.pointer tyName pointeeId)).1,
           (RSExportTypeNew r.2 tyName (.pointer tyName pointeeId)).2) := by
  rw [RSExportType.CreateByName, h]

theorem CreateByName_extVector (ctx : RSContext) (e : CType) (n : Nat)
    (tyName : String) (h : ctx.findExportType tyName = none) :
    RSExportType.CreateByName ctx (.extVector e n) tyName =
      RSExportVectorType.Create ctx e n tyName := by
  rw [RSExportType.CreateByName, h]

theorem CreateByName_constantArray (ctx : RSContext) (e : CType) (s : Nat)
    (tyName : String) (h : ctx.findExportType tyName = none) :
    RSExportType.CreateByName ctx (.constantArray e s) tyName =
      let r :=
        match RSExportType.NormalizeTypeName e with
        | some en => RSExportType.CreateByName ctx e en
        | none => (none, ctx)
      match r.1 with
      | none => (none, r.2)
      | some elemId =>
          (some (RSExportTypeNew r.2 dummyConstantArrayTypeName
             (.constantArray dummyConstantArrayTypeName elemId s)).1,
           (RSExportTypeNew r.2 dummyConstantArrayTypeName
             (.constantArray dummyConstantArrayTypeName elemId s)).2) := by
  rw [RSExportType.CreateByName, h]

theorem CreateByName_other (ctx : RSContext) (tyName : String)
    (h : ctx.findExportType tyName = none) :
    RSExportType.CreateByName ctx .other tyName =
      (none,
       ctx.report "unknown type cannot be exported: '%0'"
         [CType.typeClassName .other]) := by
  rw [RSExportType.CreateByName, h]

theorem recordFieldsCreate_cons (ctx : RSContext) (rdName recName : String)
    (packed artificial : Bool) (allocSize : Nat) (id : Nat) (fname : String)
    (fty : CType) (fbit : Bool) (foff : Nat)
    (rest : List (String × CType × Bool × Nat))
    (acc : List (String × Nat × Nat)) :
    recordFieldsCreate ctx rdName recName packed artificial allocSize id
        ((fname, fty, fbit, foff) :: rest) acc =
      if fbit then (none, ctx.heapErase id)
      else
        let r :=
          match RSExportType.NormalizeTypeName fty with
          | some fn => RSExportType.CreateByName ctx fty fn
          | none => (none, ctx)
        match r.1 with
        | some fid =>
            recordFieldsCreate
              ((r.2).heapSet id
                (.record recName packed artificial allocSize
                  (acc ++ [(fname, fid, foff >>> 3)])))
              rdName recName packed artificial allocSize id rest
              (acc ++ [(fname, fid, foff >>> 3)])
        | none =>
            (none,
             ((r.2).report "field type cannot be exported: '%0.%1'"
               [rdName, fname]).heapErase id) := rfl

/-- A successful field loop hands back the record object it was given. -/
theorem recordFieldsCreate_id :
    ∀ (fs : List (String × CType × Bool × Nat)) (ctx : RSContext)
      (rdName recName : String) (packed artificial : Bool) (allocSize : Nat)
      (id : Nat) (acc : List (String × Nat × Nat)) (j : Nat)
      (ctx2 : RSContext),
      recordFieldsCreate ctx rdName recName packed artificial allocSize id
        fs acc = (some j, ctx2) → j = id := by
  intro fs
  induction fs with
  | nil =>
      intro ctx rdName recName packed artificial allocSize id acc j ctx2 h
      rw [recordFieldsCreate] at h
      simp only [Prod.mk.injEq, Option.some.injEq] at h
      exact h.1.symm
  | cons f rest ih =>
      intro ctx rdName recName packed artificial allocSize id acc j ctx2 h
      obtain ⟨fname, fty, fbit, foff⟩ := f
      rw [recordFieldsCreate_cons] at h
      split at h
      · simp at h
      · simp only at h
        split at h
        · exact ih _ _ _ _ _ _ _ _ _ _ h
        · simp at h

/-! ## Named pieces of the recursive `Create` paths

The `Pointer`/`ConstantArray` cases of `RSExportType.CreateByName` and the
per-field resolution of `recordFieldsCreate` are restated through named
helper functions (definitionally equal to the inlined bodies), so that the
registry lemmas below can speak about each piece separately. -/

/-- The nested-type resolution step (`RSExportType::Create(Context, T)` on a
field or array-element type). -/
def elemCreate (ctx : RSContext) (t : CType) : Option Nat × RSContext :=
  match RSExportType.NormalizeTypeName t with
  | some n => RSExportType.CreateByName ctx t n
  | none => (none, ctx)

/-- The pointee-resolution step of `RSExportPointerType::Create`. -/
def ptrPointee (ctx : RSContext) (p : CType) : Option Nat × RSContext :=
  if p.isPointerType then
    RSExportPrimitiveType.CreateFromType ctx (.builtin .int)
  else elemCreate ctx p

/-- The tail of `RSExportPointerType::Create`: construct the pointer object
once the pointee resolved. -/
def ptrFinish (r : Option Nat × RSContext) (tyName : String) :
    Option Nat × RSContext :=
  match r.1 with
  | none => (none, r.2)
  | some pointeeId =>
      let rn := RSExportTypeNew r.2 tyName (.pointer tyName pointeeId)
      (some rn.1, rn.2)

/-- The tail of `RSExportConstantArrayType::Create`: construct the array
object (under the dummy name) once the element resolved. -/
def caFinish (r : Option Nat × RSContext) (s : Nat) :
    Option Nat × RSContext :=
  match r.1 with
  | none => (none, r.2)
  | some elemId =>
      let rn := RSExportTypeNew r.2 dummyConstantArrayTypeName
        (.constantArray dummyConstantArrayTypeName elemId s)
      (some rn.1, rn.2)

/-- The `Pointer` case of `CreateByName` on a registry miss, in terms of the
named pieces. -/
theorem CreateByName_pointer_split (ctx : RSContext) (p : CType)
    (tyName : String) (h : ctx.findExportType tyName = none) :
    RSExportType.CreateByName ctx (.pointer p) tyName =
      ptrFinish (ptrPointee ctx p) tyName := by
  rw [CreateByName_pointer ctx p tyName h]; rfl

/-- The `ConstantArray` case of `CreateByName` on a registry miss, in terms
of the named pieces. -/
theorem CreateByName_constantArray_split (ctx : RSContext) (e : CType)
    (s : Nat) (tyName : String) (h : ctx.findExportType tyName = none) :
    RSExportType.CreateByName ctx (.constantArray e s) tyName =
      caFinish (elemCreate ctx e) s := by
  rw [CreateByName_constantArray ctx e s tyName h]; rfl

/-- The cons step of the field loop, in terms of `elemCreate`. -/
theorem recordFieldsCreate_cons_split (ctx : RSContext)
    (rdName recName : String) (packed artificial : Bool) (allocSize : Nat)
    (id : Nat) (fname : String) (fty : CType) (fbit : Bool) (foff : Nat)
    (rest : List (String × CType × Bool × Nat))
    (acc : List (String × Nat × Nat)) :
    recordFieldsCreate ctx rdName recName packed artificial allocSize id
        ((fname, fty, fbit, foff) :: rest) acc =
      if fbit then (none, ctx.heapErase id)
      else
        match (elemCreate ctx fty).1 with
        | some fid =>
            recordFieldsCreate
              ((elemCreate ctx fty).2.heapSet id
                (.record recName packed artificial allocSize
                  (acc ++ [(fname, fid, foff >>> 3)])))
              rdName recName packed artificial allocSize id rest
              (acc ++ [(fname, fid, foff >>> 3)])
        | none =>
            (none,
             (((elemCreate ctx fty).2).report
               "field type cannot be exported: '%0.%1'"
               [rdName, fname]).heapErase id) := rfl

theorem ptrFinish_present (r : Option Nat × RSContext) (n k : String)
    (v : Nat) (h : r.2.findExportType k = some v) :
    (ptrFinish r n).2.findExportType k = some v := by
  rw [ptrFinish]
  split
  · exact h
  · exact RSExportTypeNew_present _ _ _ _ _ h

theorem ptrFinish_absent (r : Option Nat × RSContext) (n k : String)
    (hk : r.2.findExportType k = none) (hne : n ≠ k) :
    (ptrFinish r n).2.findExportType k = none := by
  rw [ptrFinish]
  split
  · exact hk
  · exact RSExportTypeNew_absent _ _ _ _ hk hne

/-- A successful `ptrFinish` interns its name. -/
theorem ptrFinish_interns (r : Option Nat × RSContext) (n : String)
    (id : Nat) (ctx2 : RSContext) (hn : r.2.findExportType n = none)
    (hd : isDummyTypeName n = false)
    (h : ptrFinish r n = (some id, ctx2)) :
    ctx2.findExportType n = some id := by
  rw [ptrFinish] at h
  split at h
  · simp at h
  · simp only [Prod.mk.injEq, Option.some.injEq] at h
    obtain ⟨hid, hc⟩ := h
    subst hc
    rw [RSExportTypeNew_fst] at hid
    subst hid
    exact RSExportTypeNew_self _ _ _ hn hd

theorem caFinish_present (r : Option Nat × RSContext) (s : Nat) (k : String)
    (v : Nat) (h : r.2.findExportType k = some v) :
    (caFinish r s).2.findExportType k = some v := by
  rw [caFinish]
  split
  · exact h
  · exact RSExportTypeNew_present _ _ _ _ _ h

theorem caFinish_absent (r : Option Nat × RSContext) (s : Nat) (k : String)
    (hk : r.2.findExportType k = none) :
    (caFinish r s).2.findExportType k = none := by
  rw [caFinish]
  split
  · exact hk
  · exact RSExportTypeNew_absent_dummy _ _ _ _ hk (by decide)

/-- `RSExportPrimitiveType::Create(Context, T, DK)` preserves present
registry keys. -/
theorem CreateFromType_present (ctx : RSContext) (t : CType) (k : String)
    (v : Nat) (h : ctx.findExportType k = some v) :
    (RSExportPrimitiveType.CreateFromType ctx t).2.findExportType k =
      some v := by
  rw [RSExportPrimitiveType.CreateFromType]
  split
  · split
    · exact PrimCreate_present _ _ _ _ _ h
    · exact h
  · exact h

/-- On the multi-level-pointer path the pointee is exactly
`RSExportPrimitiveType::Create` with canonical name `"int"`. -/
theorem CreateFromType_int_eq (ctx : RSContext) :
    RSExportPrimitiveType.CreateFromType ctx (.builtin .int) =
      RSExportPrimitiveType.Create ctx (.builtin .int) "int" := rfl

/-! ## Canonical names produced along the creation recursion -/

/-- Every name in the builtin table is a non-empty C identifier (in
particular it does not begin with `'*'`). -/
theorem builtinCName_ok (k : BuiltinKind) (s : String)
    (h : builtinCName k = some s) : s ≠ "" ∧ isStarName s = false := by
  cases k <;>
    first
      | exact Option.noConfusion h
      | (injection h with h; subst h; exact ⟨by decide, by decide⟩)

/-- Appending cannot change the first character of a non-empty string. -/
theorem isStarName_append (s x : String) (hs : s ≠ "") :
    isStarName (s ++ x) = isStarName s := by
  have hd : (s ++ x).data = s.data ++ x.data := rfl
  rcases hsd : s.data with _ | ⟨c, cs⟩
  · exact absurd (String.ext hsd) hs
  · simp only [isStarName, hd, hsd]
    rfl

/-- The canonical name of a pointer-free, star-free type never begins with
`'*'`: builtin and vector names come from the builtin table, record names
are the resolved record name (star-free by `recNoStar`), constant arrays
get the dummy sentinel `"<ConstantArray>"`. -/
theorem getName_noStar (t : CType) (nm : String)
    (hnp : noPointerReach t = true) (hns : recNoStar t = true)
    (hg : RSExportType.GetTypeName t = some nm) (hne : nm ≠ "") :
    isStarName nm = false := by
  cases t with
  | builtin k =>
      rw [RSExportType.GetTypeName] at hg
      injection hg with hg
      rcases hc : builtinCName k with _ | s
      · rw [hc] at hg
        exact absurd hg.symm hne
      · rw [hc] at hg
        have hok := builtinCName_ok k s hc
        rw [← hg]
        exact hok.2
  | record m fs =>
      rw [RSExportType.GetTypeName] at hg
      injection hg with hg
      by_cases hu : m.isUnion
      · rw [if_pos hu] at hg
        exact absurd hg.symm hne
      · rw [if_neg hu] at hg
        rw [recNoStar] at hns
        rw [Bool.and_eq_true] at hns
        have h1 := hns.1
        rw [← hg]
        cases hx : isStarName (recordResolvedName m)
        · rfl
        · rw [hx] at h1; simp at h1
  | pointer p => simp [noPointerReach] at hnp
  | extVector e n =>
      rw [RSExportType.GetTypeName] at hg
      cases e with
      | builtin bk =>
          rw [RSExportVectorType.GetTypeName] at hg
          split at hg
          · injection hg with hg; exact absurd hg.symm hne
          · rcases hc : builtinCName bk with _ | cname
            · rw [hc] at hg
              injection hg with hg; exact absurd hg.symm hne
            · rw [hc] at hg
              have hmem := List.get?_mem hg
              obtain ⟨h1, h2⟩ := builtinCName_ok bk cname hc
              simp only [List.mem_cons, List.not_mem_nil, or_false]
                at hmem
              rcases hmem with h | h | h <;>
                (subst h; rw [isStarName_append _ _ h1]; exact h2)
      | record m2 fs2 =>
          rw [RSExportVectorType.GetTypeName] at hg
          · injection hg with hg; exact absurd hg.symm hne
          · intro k hk; exact CType.noConfusion hk
      | pointer p2 =>
          rw [RSExportVectorType.GetTypeName] at hg
          · injection hg with hg; exact absurd hg.symm hne
          · intro k hk; exact CType.noConfusion hk
      | extVector e2 n2 =>
          rw [RSExportVectorType.GetTypeName] at hg
          · injection hg with hg; exact absurd hg.symm hne
          · intro k hk; exact CType.noConfusion hk
      | constantArray e2 s2 =>
          rw [RSExportVectorType.GetTypeName] at hg
          · injection hg with hg; exact absurd hg.symm hne
          · intro k hk; exact CType.noConfusion hk
      | other =>
          rw [RSExportVectorType.GetTypeName] at hg
          · injection hg with hg; exact absurd hg.symm hne
          · intro k hk; exact CType.noConfusion hk
  | constantArray e s =>
      rw [RSExportType.GetTypeName] at hg
      injection hg with hg
      rw [← hg]
      decide
  | other =>
      rw [RSExportType.GetTypeName] at hg
      injection hg with hg
      exact absurd hg.symm hne

/-- Unpacking a successful `NormalizeType`: the type is exportable and its
canonical name is the non-empty `GetTypeName`. -/
theorem Normalize_inv (t : CType) (n : String)
    (h : RSExportType.NormalizeTypeName t = some n) :
    (∃ u sps ds, TypeExportableHelper t [] none none = (some u, sps, ds)) ∧
    RSExportType.GetTypeName t = some n ∧ n ≠ "" := by
  rw [RSExportType.NormalizeTypeName, TypeExportable] at h
  rcases he : TypeExportableHelper t [] none none with ⟨eo, esps, eds⟩
  rw [he] at h
  cases eo with
  | none => simp at h
  | some u =>
      simp only at h
      rcases hg : RSExportType.GetTypeName t with _ | nm
      · rw [hg] at h; simp at h
      · rw [hg] at h
        simp only at h
        split at h
        · exact absurd h (by simp)
        · next hn0 =>
            injection h with h
            subst h
            exact ⟨⟨u, esps, eds, rfl⟩, rfl, hn0⟩

/-! ## The factory only ever adds registry entries

`CreateByName` (and its field loop) never removes or overwrites a registry
entry: every key present before a call is still mapped to the same id
afterwards, whatever the call returns. -/

mutual

theorem pres_CreateByName :
    ∀ (t : CType) (ctx : RSContext) (tyName k : String) (v : Nat),
      ctx.findExportType k = some v →
      ((RSExportType.CreateByName ctx t tyName).2).findExportType k =
        some v := by
  intro t ctx tyName k v hk
  rcases hf : ctx.findExportType tyName with _ | i
  · cases t with
    | builtin b =>
        rw [CreateByName_builtin _ _ _ hf]
        exact PrimCreate_present _ _ _ _ _ hk
    | record m fs =>
        rw [CreateByName_record _ _ _ _ hf]
        split
        · split
          · have hlt : sizeOf fs < sizeOf (CType.record m fs) := by
              simp_arith
            exact pres_recordFieldsCreate fs _ _ _ _ _ _ _ _ _ _
              (RSExportTypeNew_present _ _ _ _ _ hk)
          · exact hk
        · exact MatCreate_present _ _ _ _ _ _ _ hk
        · exact MatCreate_present _ _ _ _ _ _ _ hk
        · exact MatCreate_present _ _ _ _ _ _ _ hk
        · exact PrimCreate_present _ _ _ _ _ hk
    | pointer p =>
        rw [CreateByName_pointer_split _ _ _ hf]
        apply ptrFinish_present
        rw [ptrPointee]
        split
        · exact CreateFromType_present _ _ _ _ hk
        · rw [elemCreate]
          split
          · have hlt : sizeOf p < sizeOf (CType.pointer p) := by
              simp_arith
            exact pres_CreateByName p ctx _ k v hk
          · exact hk
    | extVector e n =>
        rw [CreateByName_extVector _ _ _ _ hf]
        exact VecCreate_present _ _ _ _ _ _ hk
    | constantArray e s =>
        rw [CreateByName_constantArray_split _ _ _ _ hf]
        apply caFinish_present
        rw [elemCreate]
        split
        · have hlt : sizeOf e < sizeOf (CType.constantArray e s) := by
            simp_arith
          exact pres_CreateByName e ctx _ k v hk
        · exact hk
    | other =>
        rw [CreateByName_other _ _ hf]
        rw [findExportType_report]
        exact hk
  · rw [CreateByName_hit _ _ _ _ hf]
    exact hk
termination_by t _ _ _ _ _ => sizeOf t

theorem pres_recordFieldsCreate :
    ∀ (fs : List (String × CType × Bool × Nat)) (ctx : RSContext)
      (rdName recName : String) (packed artificial : Bool)
      (allocSize id : Nat) (acc : List (String × Nat × Nat)) (k : String)
      (v : Nat),
      ctx.findExportType k = some v →
      ((recordFieldsCreate ctx rdName recName packed artificial allocSize
          id fs acc).2).findExportType k = some v := by
  intro fs ctx rdName recName packed artificial allocSize id acc k v hk
  match fs with
  | [] =>
      rw [recordFieldsCreate]
      exact hk
  | (fname, fty, fbit, foff) :: rest =>
      rw [recordFieldsCreate_cons_split]
      split
      · rw [findExportType_heapErase]; exact hk
      · have hec : ((elemCreate ctx fty).2).findExportType k = some v := by
          rw [elemCreate]
          split
          · have hlt : sizeOf fty <
                sizeOf ((fname, fty, fbit, foff) :: rest) := by
              simp_arith
            exact pres_CreateByName fty ctx _ k v hk
          · exact hk
        split
        · have hlt : sizeOf rest <
              sizeOf ((fname, fty, fbit, foff) :: rest) := by
            simp_arith
          exact pres_recordFieldsCreate rest _ _ _ _ _ _ _ _ _ _
            (by rw [findExportType_heapSet]; exact hec)
        · rw [findExportType_heapErase, findExportType_report]
          exact hec
termination_by fs _ _ _ _ _ _ _ _ _ _ _ => sizeOf fs

end

/-! Specialised `Record`-case equations, one per RS-specific lookup
outcome. -/

theorem CreateByName_record_mat2 (ctx : RSContext) (m : RecMeta)
    (fs : List (String × CType × Bool × Nat)) (tyName : String)
    (h1 : ctx.findExportType tyName = none)
    (h2 : RSExportPrimitiveType.GetRSSpecificTypeByName tyName =
      .rsMatrix2x2) :
    RSExportType.CreateByName ctx (.record m fs) tyName =
      RSExportMatrixType.Create ctx m fs tyName 2 := by
  rw [CreateByName_record _ _ _ _ h1, h2]

theorem CreateByName_record_mat3 (ctx : RSContext) (m : RecMeta)
    (fs : List (String × CType × Bool × Nat)) (tyName : String)
    (h1 : ctx.findExportType tyName = none)
    (h2 : RSExportPrimitiveType.GetRSSpecificTypeByName tyName =
      .rsMatrix3x3) :
    RSExportType.CreateByName ctx (.record m fs) tyName =
      RSExportMatrixType.Create ctx m fs tyName 3 := by
  rw [CreateByName_record _ _ _ _ h1, h2]

theorem CreateByName_record_mat4 (ctx : RSContext) (m : RecMeta)
    (fs : List (String × CType × Bool × Nat)) (tyName : String)
    (h1 : ctx.findExportType tyName = none)
    (h2 : RSExportPrimitiveType.GetRSSpecificTypeByName tyName =
      .rsMatrix4x4) :
    RSExportType.CreateByName ctx (.record m fs) tyName =
      RSExportMatrixType.Create ctx m fs tyName 4 := by
  rw [CreateByName_record _ _ _ _ h1, h2]

/-- A record whose canonical name resolves to a non-matrix RS object type
goes through `RSExportPrimitiveType::Create`. -/
theorem CreateByName_record_prim (ctx : RSContext) (m : RecMeta)
    (fs : List (String × CType × Bool × Nat)) (tyName : String)
    (dt : DataType) (h1 : ctx.findExportType tyName = none)
    (h2 : RSExportPrimitiveType.GetRSSpecificTypeByName tyName = dt)
    (h3 : dt ≠ .unknown) (h4 : dt ≠ .rsMatrix2x2) (h5 : dt ≠ .rsMatrix3x3)
    (h6 : dt ≠ .rsMatrix4x4) :
    RSExportType.CreateByName ctx (.record m fs) tyName =
      RSExportPrimitiveType.Create ctx (.record m fs) tyName := by
  rw [CreateByName_record _ _ _ _ h1, h2]
  cases dt <;>
    first
      | rfl
      | exact absurd rfl h3
      | exact absurd rfl h4
      | exact absurd rfl h5
      | exact absurd rfl h6

/-! ## Creating a pointer-free, star-free type never interns a `'*'` key

The canonical names interned while creating such a type are builtin names,
`cname ++ "2"/"3"/"4"` vector names, resolved record names, or skipped dummy
array names — never a name beginning with `'*'`.  Hence a star-led key that
is absent from the registry before the call is still absent afterwards. -/

mutual

theorem createNoStar_absent :
    ∀ (t : CType) (ctx : RSContext) (tyName k : String),
      noPointerReach t = true → recNoStar t = true →
      RSExportType.NormalizeTypeName t = some tyName →
      isStarName k = true → ctx.findExportType k = none →
      ((RSExportType.CreateByName ctx t tyName).2).findExportType k =
        none := by
  intro t ctx tyName k hnp hns hnm hstar hk
  obtain ⟨-, hgt, hne0⟩ := Normalize_inv t tyName hnm
  have hsf : isStarName tyName = false :=
    getName_noStar t tyName hnp hns hgt hne0
  have hne : tyName ≠ k := by
    intro he
    rw [he, hstar] at hsf
    exact Bool.noConfusion hsf
  rcases hf : ctx.findExportType tyName with _ | i
  · cases t with
    | builtin b =>
        rw [CreateByName_builtin _ _ _ hf]
        exact PrimCreate_absent _ _ _ _ hk hne
    | record m fs =>
        rw [RSExportType.GetTypeName] at hgt
        injection hgt with hgt
        by_cases hu : m.isUnion
        · rw [if_pos hu] at hgt
          exact absurd hgt.symm hne0
        · rw [if_neg hu] at hgt
          cases hby : RSExportPrimitiveType.GetRSSpecificTypeByName tyName
          rotate_left 14
          · rw [CreateByName_record_mat2 ctx m fs tyName hf hby]
            exact MatCreate_absent _ _ _ _ _ _ hk hne
          · rw [CreateByName_record_mat3 ctx m fs tyName hf hby]
            exact MatCreate_absent _ _ _ _ _ _ hk hne
          · rw [CreateByName_record_mat4 ctx m fs tyName hf hby]
            exact MatCreate_absent _ _ _ _ _ _ hk hne
          rotate_left 11
          · have hrs : RSExportPrimitiveType.GetRSSpecificType
                (.record m fs) = .unknown := by
              rw [RSExportPrimitiveType.GetRSSpecificType, if_neg hu, hgt]
              exact hby
            rw [CreateByName_record_unknown ctx m fs tyName hf hby,
              RSExportRecordType.Create]
            split
            · rw [noPointerReach] at hnp
              rw [if_neg (fun hc => hc hrs)] at hnp
              rw [recNoStar, Bool.and_eq_true] at hns
              have hns2 := hns.2
              rw [if_neg (fun hc => hc hrs)] at hns2
              have hlt : sizeOf fs < sizeOf (CType.record m fs) := by
                simp_arith
              exact createNoStar_absent_fields fs _ _ _ _ _ _ _ _ _
                hnp hns2 hstar (RSExportTypeNew_absent _ _ _ _ hk hne)
            · exact hk
          all_goals
            rw [CreateByName_record_prim ctx m fs tyName _ hf hby
              (by decide) (by decide) (by decide) (by decide)]
          all_goals exact PrimCreate_absent _ _ _ _ hk hne
    | pointer p =>
        rw [noPointerReach] at hnp
        exact Bool.noConfusion hnp
    | extVector e n =>
        rw [CreateByName_extVector _ _ _ _ hf]
        exact VecCreate_absent _ _ _ _ _ hk hne
    | constantArray e s =>
        rw [CreateByName_constantArray_split _ _ _ _ hf]
        apply caFinish_absent
        rw [elemCreate]
        rcases hn2 : RSExportType.NormalizeTypeName e with _ | en
        · exact hk
        · have hlt : sizeOf e < sizeOf (CType.constantArray e s) := by
            simp_arith
          exact createNoStar_absent e ctx en k
            (by rw [noPointerReach] at hnp; exact hnp)
            (by rw [recNoStar] at hns; exact hns) hn2 hstar hk
    | other =>
        rw [show RSExportType.NormalizeTypeName CType.other = none
          from rfl] at hnm
        exact Option.noConfusion hnm
  · rw [CreateByName_hit _ _ _ _ hf]
    exact hk
termination_by t _ _ _ _ _ _ _ _ => sizeOf t

theorem createNoStar_absent_fields :
    ∀ (fs : List (String × CType × Bool × Nat)) (ctx : RSContext)
      (rdName recName : String) (packed artificial : Bool)
      (allocSize id : Nat) (acc : List (String × Nat × Nat)) (k : String),
      fieldsNoPointer fs = true → fieldsRecNoStar fs = true →
      isStarName k = true → ctx.findExportType k = none →
      ((recordFieldsCreate ctx rdName recName packed artificial allocSize
          id fs acc).2).findExportType k = none := by
  intro fs ctx rdName recName packed artificial allocSize id acc k hfnp
    hfns hstar hk
  match fs with
  | [] =>
      rw [recordFieldsCreate]
      exact hk
  | (fname, fty, fbit, foff) :: rest =>
      rw [fieldsNoPointer, Bool.and_eq_true] at hfnp
      rw [fieldsRecNoStar, Bool.and_eq_true] at hfns
      rw [recordFieldsCreate_cons_split]
      split
      · rw [findExportType_heapErase]; exact hk
      · have hec : ((elemCreate ctx fty).2).findExportType k = none := by
          rw [elemCreate]
          rcases hn : RSExportType.NormalizeTypeName fty with _ | fn
          · exact hk
          · have hlt : sizeOf fty <
                sizeOf ((fname, fty, fbit, foff) :: rest) := by
              simp_arith
            exact createNoStar_absent fty ctx fn k hfnp.1 hfns.1 hn
              hstar hk
        split
        · have hlt : sizeOf rest <
              sizeOf ((fname, fty, fbit, foff) :: rest) := by
            simp_arith
          exact createNoStar_absent_fields rest _ _ _ _ _ _ _ _ _
            hfnp.2 hfns.2 hstar
            (by rw [findExportType_heapSet]; exact hec)
        · rw [findExportType_heapErase, findExportType_report]
          exact hec
termination_by fs _ _ _ _ _ _ _ _ _ _ _ _ _ => sizeOf fs

end

/-! ## A successful creation interns the canonical name -/

/-- Constructing through `RSExportTypeNew` under a non-dummy, previously
absent name leaves the registry mapping that name to the new object. -/
theorem newPair_interns (ctx : RSContext) (n : String) (d : ExportTypeData)
    (id : Nat) (ctx2 : RSContext) (hn : ctx.findExportType n = none)
    (hd : isDummyTypeName n = false)
    (h : (some (RSExportTypeNew ctx n d).1, (RSExportTypeNew ctx n d).2) =
      ((some id : Option Nat), ctx2)) :
    ctx2.findExportType n = some id := by
  simp only [Prod.mk.injEq, Option.some.injEq] at h
  obtain ⟨hid, hc⟩ := h
  subst hc
  rw [RSExportTypeNew_fst] at hid
  subst hid
  exact RSExportTypeNew_self _ _ _ hn hd

theorem PrimCreate_interns (ctx : RSContext) (t : CType) (n : String)
    (id : Nat) (ctx2 : RSContext) (hn : ctx.findExportType n = none)
    (hd : isDummyTypeName n = false)
    (h : RSExportPrimitiveType.Create ctx t n = (some id, ctx2)) :
    ctx2.findExportType n = some id := by
  rw [RSExportPrimitiveType.Create] at h
  simp only at h
  split at h
  · simp at h
  · exact newPair_interns _ _ _ _ _
      (by rw [findExportType_GetDataType]; exact hn) hd h

theorem VecCreate_interns (ctx : RSContext) (e : CType) (cnt : Nat)
    (n : String) (id : Nat) (ctx2 : RSContext)
    (hn : ctx.findExportType n = none) (hd : isDummyTypeName n = false)
    (h : RSExportVectorType.Create ctx e cnt n = (some id, ctx2)) :
    ctx2.findExportType n = some id := by
  rw [RSExportVectorType.Create] at h
  simp only at h
  split at h
  · exact newPair_interns _ _ _ _ _
      (by rw [findExportType_GetDataType]; exact hn) hd h
  · simp at h

theorem MatCreate_interns (ctx : RSContext) (m : RecMeta)
    (fs : List (String × CType × Bool × Nat)) (n : String) (dim : Nat)
    (id : Nat) (ctx2 : RSContext) (hn : ctx.findExportType n = none)
    (hd : isDummyTypeName n = false)
    (h : RSExportMatrixType.Create ctx m fs n dim = (some id, ctx2)) :
    ctx2.findExportType n = some id := by
  rw [RSExportMatrixType.Create.eq_def] at h
  repeat' split at h
  all_goals
    first
      | exact newPair_interns _ _ _ _ _ hn hd h
      | simp at h

/-- The key invariant behind interning: when `CreateByName` succeeds on an
exportable type whose canonical name is not the dummy array sentinel (and
whose reachable record names are C identifiers, hence star-free), the
resulting context maps the canonical name to the returned object. -/
theorem CreateByName_interns :
    ∀ (t : CType) (ctx : RSContext) (tyName : String) (id : Nat)
      (ctx2 : RSContext),
      RSExportType.NormalizeTypeName t = some tyName →
      isDummyTypeName tyName = false →
      recNoStar t = true →
      RSExportType.CreateByName ctx t tyName = (some id, ctx2) →
      ctx2.findExportType tyName = some id := by
  intro t ctx tyName id ctx2 hnm hd hs h
  obtain ⟨⟨u, sps0, ds0, hexp⟩, hgt, hne0⟩ := Normalize_inv t tyName hnm
  rcases hf : ctx.findExportType tyName with _ | i
  · cases t with
    | builtin b =>
        rw [CreateByName_builtin _ _ _ hf] at h
        exact PrimCreate_interns _ _ _ _ _ hf hd h
    | record m fs =>
        rw [RSExportType.GetTypeName] at hgt
        injection hgt with hgt
        by_cases hu : m.isUnion
        · rw [if_pos hu] at hgt
          exact absurd hgt.symm hne0
        · rw [if_neg hu] at hgt
          cases hby : RSExportPrimitiveType.GetRSSpecificTypeByName tyName
          rotate_left 14
          · rw [CreateByName_record_mat2 ctx m fs tyName hf hby] at h
            exact MatCreate_interns _ _ _ _ _ _ _ hf hd h
          · rw [CreateByName_record_mat3 ctx m fs tyName hf hby] at h
            exact MatCreate_interns _ _ _ _ _ _ _ hf hd h
          · rw [CreateByName_record_mat4 ctx m fs tyName hf hby] at h
            exact MatCreate_interns _ _ _ _ _ _ _ hf hd h
          rotate_left 11
          · rw [CreateByName_record_unknown ctx m fs tyName hf hby,
              RSExportRecordType.Create] at h
            split at h
            · have hid := recordFieldsCreate_id fs _ _ _ _ _ _ _ _ id
                ctx2 h
              have h2 := congrArg Prod.snd h
              simp only at h2
              rw [← h2, hid]
              exact pres_recordFieldsCreate fs _ _ _ _ _ _ _ _ _ _
                (by rw [RSExportTypeNew_fst]
                    exact RSExportTypeNew_self _ _ _ hf hd)
            · simp at h
          all_goals
            rw [CreateByName_record_prim ctx m fs tyName _ hf hby
              (by decide) (by decide) (by decide) (by decide)] at h
          all_goals exact PrimCreate_interns _ _ _ _ _ hf hd h
    | pointer p =>
        rw [RSExportType.GetTypeName] at hgt
        rcases hre : TypeExportableHelper p [] none none with ⟨ro, rsps, rds⟩
        rw [hre] at hgt
        simp only at hgt
        cases ro with
        | none =>
            injection hgt with hgt
            exact absurd hgt.symm hne0
        | some up =>
            rcases hgp : RSExportType.GetTypeName p with _ | pn
            · rw [hgp] at hgt
              exact Option.noConfusion hgt
            · rw [hgp] at hgt
              simp only at hgt
              by_cases hpz : pn = ""
              · rw [if_pos hpz] at hgt
                injection hgt with hgt
                exact absurd hgt.symm hne0
              · rw [if_neg hpz] at hgt
                injection hgt with hgt
                have hstar : isStarName tyName = true := by
                  rw [← hgt]; rfl
                rw [TypeExportableHelper_pointer,
                  if_neg (List.not_mem_nil _)] at hexp
                rw [CreateByName_pointer_split _ _ _ hf] at h
                by_cases hpp : p.isPointerType
                · have hnn : (ptrPointee ctx p).2.findExportType tyName =
                      none := by
                    rw [ptrPointee, if_pos hpp, CreateFromType_int_eq]
                    exact PrimCreate_absent _ _ _ _ hf
                      (fun he => by
                        rw [← he] at hstar
                        exact absurd hstar (by decide))
                  exact ptrFinish_interns _ _ _ _ hnn hd h
                · rw [if_neg hpp] at hexp
                  by_cases hpa : p.isArrayType
                  · rw [if_pos hpa] at hexp
                    simp at hexp
                  · rw [if_neg hpa] at hexp
                    have hnpp : noPointerReach p = true := by
                      have hih := exportable_noPtr p [] none none
                        (fun s hsm => absurd hsm (List.not_mem_nil s))
                        up rsps rds hre
                      rcases hih.2.1 with hh | hh | hh
                      · exact hh
                      · exact absurd hh hpp
                      · exact absurd hh hpa
                    have hrns : recNoStar p = true := by
                      rw [recNoStar] at hs
                      exact hs
                    have hnp2 : RSExportType.NormalizeTypeName p =
                        some pn := by
                      rw [RSExportType.NormalizeTypeName, TypeExportable,
                        hre]
                      simp only
                      rw [hgp]
                      simp only
                      rw [if_neg hpz]
                    have hnn : (ptrPointee ctx p).2.findExportType tyName =
                        none := by
                      rw [ptrPointee, if_neg hpp, elemCreate, hnp2]
                      exact createNoStar_absent p ctx pn tyName hnpp hrns
                        hnp2 hstar hf
                    exact ptrFinish_interns _ _ _ _ hnn hd h
    | extVector e n =>
        rw [CreateByName_extVector _ _ _ _ hf] at h
        exact VecCreate_interns _ _ _ _ _ _ hf hd h
    | constantArray e s =>
        rw [RSExportType.GetTypeName] at hgt
        injection hgt with hgt
        rw [← hgt] at hd
        exact absurd hd (by decide)
    | other =>
        rw [show RSExportType.NormalizeTypeName CType.other = none
          from rfl] at hnm
        exact Option.noConfusion hnm
  · rw [CreateByName_hit _ _ _ _ hf] at h
    simp only [Prod.mk.injEq, Option.some.injEq] at h
    obtain ⟨hid, hc⟩ := h
    subst hc
    subst hid
    exact hf

/-- C1 (corrected): interning idempotence of the registry factory.  The
original claim fails for constant arrays — their canonical name is the dummy
sentinel `"<ConstantArray>"`, which `RSExportType::RSExportType` refuses to
intern, so each `Create` call constructs a fresh instance (see
`claim_C1_counterexample`).  For every other case — a type whose canonical
name is not dummy and whose reachable record names are C identifiers (hence
never beginning with `'*'`, the `recNoStar` hypothesis) — a second
`RSExportType::Create(Context, T)` on the context produced by a successful
first call finds the canonical name in the registry and returns the same
interned object, leaving the context unchanged. -/
theorem claim_C1_interning_idempotent (t : CType) (ctx ctx1 : RSContext)
    (name : String) (id : Nat)
    (hnm : RSExportType.NormalizeTypeName t = some name)
    (hd : isDummyTypeName name = false)
    (hs : recNoStar t = true)
    (h : RSExportType.Create ctx t = (some id, ctx1)) :
    RSExportType.Create ctx1 t = (some id, ctx1) := by
  have h2 : RSExportType.CreateByName ctx t name = (some id, ctx1) := by
    rw [RSExportType.Create, hnm] at h
    exact h
  have hfind := CreateByName_interns t ctx name id ctx1 hnm hd hs h2
  rw [RSExportType.Create, hnm]
  exact CreateByName_hit ctx1 t name id hfind

/-- C1 counterexample: constant arrays are never interned (their canonical
name is the dummy sentinel `"<ConstantArray>"`), so creating `int[4]` twice
in the same context succeeds both times but yields two distinct objects
(ids 1 and 2), against the claim's pointer-identity guarantee. -/
theorem claim_C1_counterexample :
    (RSExportType.Create RSContext.empty
        (.constantArray (.builtin .int) 4)).1 = some 1 ∧
    (RSExportType.Create
        (RSExportType.Create RSContext.empty
          (.constantArray (.builtin .int) 4)).2
        (.constantArray (.builtin .int) 4)).1 = some 2 := by
  decide

/-- C1 witness: creating `int*` twice — the second call returns the object
the first call interned under `"*int"`, with the context unchanged. -/
theorem claim_C1_witness :
    RSExportType.Create
        (RSExportType.Create RSContext.empty
          (.pointer (.builtin .int))).2
        (.pointer (.builtin .int)) =
      (some 1,
       (RSExportType.Create RSContext.empty
         (.pointer (.builtin .int))).2) :=
  claim_C1_interning_idempotent (.pointer (.builtin .int)) RSContext.empty
    (RSExportType.Create RSContext.empty (.pointer (.builtin .int))).2
    "*int" 1 (by decide) (by decide) (by decide) (by decide)

end Slang